import Mathlib

/-! The C2 type core (`c2c/Type.cpp`).

A shallow embedding of the type representation of the C2 compiler front end:
`QualType` handles, `Type` nodes (here `TypeNode`, since `Type` is reserved),
the builtin registry and the `TypeContext` arena with its interning of pointer
types.

Conventions of the embedding.

* A `Type*` is an address into a store of nodes (`Heap`); the null pointer is
  `none`.  `new Type(..)` places the node at the first unused address.
* `assert(c)` aborts the program when `c` is false: every operation that may
  assert returns `Except Err _` and an assertion failure is `Err.assertion`.
* Recursive queries that follow `refType` through the store take a fuel
  argument bounding the depth of the call chain; `Err.outOfFuel` marks a run
  that did not finish within the bound (it is not a failure of the program).
* The anonymous union of `Type` is kept as one field per member, each at the
  value the `memset` of the constructor gives it.
-/

namespace C2

/-- Address of a `Type` object. -/
abbrev Addr := Nat

/-- Ways a run of the program can stop without a value. -/
inductive Err where
  /-- An `assert` did not hold; the text is the asserted expression or message. -/
  | assertion (msg : String)
  /-- A pointer that refers to no object was followed. -/
  | invalidPointer
  /-- The bound on the call depth was reached before the call returned. -/
  | outOfFuel
  deriving DecidableEq, Repr

/-- The discriminant `Type::Kind`. -/
inductive Kind where
  | BUILTIN | USER | STRUCT | UNION | ENUM | FUNC | POINTER | ARRAY
  deriving DecidableEq, Repr

/-- The enumeration `C2Type` of primitive kinds, as far as `BuiltinType::get`
switches over it. -/
inductive C2Type where
  | TYPE_U8 | TYPE_U16 | TYPE_U32 | TYPE_U64
  | TYPE_I8 | TYPE_I16 | TYPE_I32 | TYPE_I64
  | TYPE_INT | TYPE_STRING | TYPE_FLOAT | TYPE_F32 | TYPE_F64
  | TYPE_CHAR | TYPE_BOOL | TYPE_VOID
  deriving DecidableEq, Repr

/-- Modelled from the spec: the class `QualType` is declared in `Type.h`, which
is not part of the sources.  A handle pairs a non-owning reference to a `Type`
with a qualifier bitmask; the null handle references no type. -/
structure QualType where
  type : Option Addr
  qualifiers : Nat
  deriving DecidableEq, Repr

namespace QualType

/-- The default constructor `QualType()`: the null handle. -/
def null : QualType := ⟨none, 0⟩

/-- The converting constructor `QualType(Type*)`, with no qualifiers. -/
def ofType (t : Addr) : QualType := ⟨some t, 0⟩

/-- The method `QualType::isNull`. -/
def isNull (q : QualType) : Bool := q.type.isNone

/-- The method `QualType::isValid`. -/
def isValid (q : QualType) : Bool := q.type.isSome

/-- The method `QualType::getTypePtr`: asserts that the handle is not null. -/
def getTypePtr (q : QualType) : Except Err Addr :=
  match q.type with
  | none => .error (.assertion "Cannot retrieve a NULL type pointer")
  | some t => .ok t

end QualType

/-- Opaque expression of the expression subsystem (array sizes, alias names). -/
structure Expr where
  ident : Nat
  deriving DecidableEq, Repr

/-- Member declaration, as far as this core reads it: its name and its type. -/
structure DeclExpr where
  name : String
  type : QualType
  deriving DecidableEq, Repr

/-- The member list of a struct, union or enum. -/
abbrev MemberList := List DeclExpr

/-- Modelled from the spec: the fields of class `Type` are declared in `Type.h`,
which is not part of the sources.  `kind` and `refType` are set by the
constructor; the remaining fields are the members of the anonymous union
(`userType`; `sname`, `members`; `arguments`; `arrayExpr`, `ownArrayExpr`;
`name`, `cname`, `width`, `c2type`) and `CanonicalType`.  `arguments` is the
chain of `Argument` cells from the head, `[]` being the null pointer. -/
structure TypeNode where
  kind : Kind
  refType : QualType
  CanonicalType : QualType
  userType : Option Expr
  sname : Option String
  members : Option MemberList
  arguments : List QualType
  arrayExpr : Option Expr
  ownArrayExpr : Bool
  name : Option String
  cname : Option String
  width : Nat
  c2type : Option C2Type
  deriving DecidableEq, Repr

/-- The store in which `Type` objects live; the object at address `a` is `h[a]?`. -/
abbrev Heap := List TypeNode

namespace TypeNode

/-- The constructor `Type::Type(kind_, refType_)`: the fields are initialised, the union is
zeroed, then the presence of `refType` is asserted against the kind. -/
def new (kind_ : Kind) (refType_ : QualType) : Except Err TypeNode :=
  let t : TypeNode :=
    { kind := kind_, refType := refType_, CanonicalType := QualType.null,
      userType := none, sname := none, members := none, arguments := [],
      arrayExpr := none, ownArrayExpr := false,
      name := none, cname := none, width := 0, c2type := none }
  match kind_ with
  | .BUILTIN | .USER | .STRUCT | .UNION | .ENUM | .FUNC =>
    if refType_.isNull then .ok t else .error (.assertion "refType.isNull()")
  | .POINTER | .ARRAY =>
    if refType_.isValid then .ok t else .error (.assertion "refType.isValid()")

/-- The method `Type::isPointerType`. -/
def isPointerType (t : TypeNode) : Bool := t.kind == .POINTER

/-- The method `Type::getRefType`. -/
def getRefType (t : TypeNode) : QualType := t.refType

/-- The method `Type::setRefType`. -/
def setRefType (t : TypeNode) (q : QualType) : Except Err TypeNode :=
  if t.kind = .USER then .ok { t with refType := q }
  else .error (.assertion "kind == USER")

/-- The method `Type::setMembers`. -/
def setMembers (t : TypeNode) (members_ : Option MemberList) : Except Err TypeNode :=
  if t.kind = .STRUCT ∨ t.kind = .UNION ∨ t.kind = .ENUM then
    if t.members = none then .ok { t with members := members_ }
    else .error (.assertion "members == 0")
  else .error (.assertion "kind == STRUCT || kind == UNION || kind == ENUM")

/-- The method `Type::getMembers`. -/
def getMembers (t : TypeNode) : Except Err (Option MemberList) :=
  if t.kind = .STRUCT ∨ t.kind = .UNION ∨ t.kind = .ENUM then .ok t.members
  else .error (.assertion "kind == STRUCT || kind == UNION || kind == ENUM")

/-- The method `Type::setReturnType`. -/
def setReturnType (t : TypeNode) (type : QualType) : Except Err TypeNode :=
  if t.kind = .FUNC then .ok { t with refType := type }
  else .error (.assertion "kind == FUNC")

/-- The walk of `Type::addArgument` to the last cell of the chain, where the new
cell is linked; on the empty chain the new cell becomes the head. -/
def linkLast : List QualType → QualType → List QualType
  | [], arg => [arg]
  | a :: next, arg => a :: linkLast next arg

/-- The method `Type::addArgument`. -/
def addArgument (t : TypeNode) (type_ : QualType) : Except Err TypeNode :=
  if t.kind = .FUNC then .ok { t with arguments := linkLast t.arguments type_ }
  else .error (.assertion "kind == FUNC")

/-- The loop of `Type::getArgument`: step along the chain while there is a cell
and `i` is not zero; then the cell's type, or the null handle if there is none. -/
def getArgumentFrom : List QualType → Nat → QualType
  | [], _ => QualType.null
  | a :: _, 0 => a
  | _ :: next, i + 1 => getArgumentFrom next i

/-- The method `Type::getArgument` (it asserts nothing about the kind). -/
def getArgument (t : TypeNode) (i : Nat) : QualType :=
  getArgumentFrom t.arguments i

/-- Modelled from the spec: `Type::setBuiltinName` is defined in `Type.h`, which
is not part of the sources; it stores the primitive tag, the display name, the
target-level name and the byte width. -/
def setBuiltinName (t : TypeNode) (ct : C2Type) (name_ cname_ : String) (width_ : Nat) :
    TypeNode :=
  { t with name := some name_, cname := some cname_, width := width_, c2type := some ct }

/-- Modelled from the spec: `Type::setArrayExpr` is defined in `Type.h`, which is
not part of the sources; it stores the size expression and the ownership flag. -/
def setArrayExpr (t : TypeNode) (expr : Option Expr) (ownExpr : Bool) : TypeNode :=
  { t with arrayExpr := expr, ownArrayExpr := ownExpr }

end TypeNode

/-- Dereference of a handle (`operator->`, `operator*`): the handle must not be
null, and the object it points to is read from the store. -/
def deref (h : Heap) (q : QualType) : Except Err TypeNode :=
  match q.getTypePtr with
  | .error e => .error e
  | .ok a =>
    match h[a]? with
    | none => .error .invalidPointer
    | some t => .ok t

/-- The method `Type::getWidth`, called on the node `t` of the store `h`. -/
def getWidth (h : Heap) : Nat → TypeNode → Except Err Nat
  | 0, _ => .error .outOfFuel
  | fuel + 1, t =>
    match t.kind with
    | .BUILTIN => .ok t.width
    | .USER =>
      match deref h t.refType with
      | .error e => .error e
      | .ok r => getWidth h fuel r
    | .STRUCT | .UNION => .error (.assertion "TODO")
    | .ENUM => .ok 4
    | .FUNC => .ok 4
    | .POINTER => .ok 4
    | .ARRAY =>
      match deref h t.refType with
      | .error e => .error e
      | .ok r => getWidth h fuel r

/-- The method `Type::isCompatible`, called on the node `t` with argument `t2`.
The source compares the two `const char*` names with `==`; a name is kept here as
its text, which is the same comparison for the names that the registry hands
out (one literal per node, no two literals with the same text). -/
def isCompatible (h : Heap) : Nat → TypeNode → TypeNode → Except Err Bool
  | 0, _, _ => .error .outOfFuel
  | fuel + 1, t, t2 =>
    match t.kind with
    | .BUILTIN =>
      if t2.kind ≠ .BUILTIN then .ok false
      else .ok (t.name == t2.name)
    | .USER => .error (.assertion "TODO")
    | .STRUCT | .UNION | .ENUM | .FUNC =>
      if t2.kind ≠ t.kind then .ok false
      else .error (.assertion "TODO")
    | .POINTER =>
      if t2.kind ≠ .POINTER then .ok false
      else
        match deref h t.refType with
        | .error e => .error e
        | .ok r =>
          match deref h t2.refType with
          | .error e => .error e
          | .ok r2 => isCompatible h fuel r r2
    | .ARRAY =>
      if t2.kind ≠ .ARRAY then .ok false
      else
        match deref h t.refType with
        | .error e => .error e
        | .ok r =>
          match deref h t2.refType with
          | .error e => .error e
          | .ok r2 => isCompatible h fuel r r2

/-- Call of a mutating method of `Type` through the pointer `a`: the object is
read from the store, and written back if the method returns. -/
def Heap.call (h : Heap) (a : Addr) (f : TypeNode → Except Err TypeNode) : Except Err Heap :=
  match h[a]? with
  | none => .error .invalidPointer
  | some t =>
    match f t with
    | .error e => .error e
    | .ok t1 => .ok (h.set a t1)

/-- The function `printArray`; `exprPrint e indent` is the text that the
expression subsystem appends for `e->print(indent, buffer)`. -/
def printArray (exprPrint : Expr → Nat → String) (buffer : String) (expr : Option Expr) :
    String :=
  match expr with
  | none => buffer ++ "[]"
  | some e => (buffer ++ "[") ++ exprPrint e 0 ++ "]"

/-- Appending a C string to the buffer; a null `const char*` refers to no text. -/
def appendCStr (buffer : String) (s : Option String) : Except Err String :=
  match s with
  | none => .error .invalidPointer
  | some text => .ok (buffer ++ text)

/-- The method `Type::printName`, called on the node `t` of the store `h`; the result is the
buffer after the call. -/
def printName (exprPrint : Expr → Nat → String) (h : Heap) :
    Nat → TypeNode → String → Except Err String
  | 0, _, _ => .error .outOfFuel
  | fuel + 1, t, buffer =>
    match t.kind with
    | .BUILTIN =>
      match t.name with
      | none => .error (.assertion "name")
      | some n => .ok (buffer ++ n)
    | .STRUCT => appendCStr (buffer ++ "(struct)") t.sname
    | .UNION => appendCStr (buffer ++ "(union)") t.sname
    | .ENUM => appendCStr (buffer ++ "(enum)") t.sname
    | .FUNC => .error (.assertion "0")
    | .USER =>
      if t.refType.isValid then
        match deref h t.refType with
        | .error e => .error e
        | .ok r => printName exprPrint h fuel r buffer
      else .error (.assertion "refType.isValid()")
    | .POINTER =>
      match deref h t.refType with
      | .error e => .error e
      | .ok r =>
        match printName exprPrint h fuel r buffer with
        | .error e => .error e
        | .ok b => .ok (b ++ "*")
    | .ARRAY =>
      match deref h t.refType with
      | .error e => .error e
      | .ok r =>
        match printName exprPrint h fuel r buffer with
        | .error e => .error e
        | .ok b => .ok (printArray exprPrint b t.arrayExpr)

/-! ### Printers -/

/-- Modelled from the spec: the class `StringBuilder` is not part of the sources;
`buffer.indent(n)` appends `n` blanks to the text sink. -/
def StringBuilder.indent (buffer : String) (n : Nat) : String :=
  buffer ++ String.mk (List.replicate n ' ')

/-- Modelled from the spec: the enumeration `QualType::RecursionType` is declared
in `Type.h`; the recursion-control flag of the diagnostic dump has two states. -/
inductive RecursionType where
  | RECURSE_NONE | RECURSE_ALL
  deriving DecidableEq, Repr

/-- What the printers use of the headers and subsystems outside `Type.cpp`: the
text appended by `Expr::print` and by `DeclExpr::print` at an indentation, the
constant `INDENT`, the colour markers, and the qualifier bits. -/
structure PrintEnv where
  exprPrint : Expr → Nat → String
  declPrint : DeclExpr → Nat → String
  INDENT : Nat
  ANSI_CYAN : String
  ANSI_NORMAL : String
  COL_ATTR : String
  QUAL_CONST : Nat
  QUAL_VOLATILE : Nat

/-- The function `printQualifiers`. -/
def printQualifiers (env : PrintEnv) (buffer : String) (flags : Nat) : String :=
  let b1 := if flags &&& env.QUAL_VOLATILE ≠ 0 then buffer ++ "volatile " else buffer
  if flags &&& env.QUAL_CONST ≠ 0 then b1 ++ "const " else b1

/-- A `for` loop over the member list: `body` is run on the buffer for each
member in turn. -/
def forMembers (body : String → DeclExpr → Except Err String) :
    List DeclExpr → String → Except Err String
  | [], buffer => .ok buffer
  | mem :: rest, buffer =>
    match body buffer mem with
    | .error e => .error e
    | .ok b => forMembers body rest b

/-- The `while (arg)` loop of `printFull` (and `printEffective`) over the chain of
arguments: the name of each argument's type, with ", " after all but the last;
`typeName` is `Type::printName`. -/
def printArgumentList (typeName : TypeNode → String → Except Err String) (h : Heap) :
    List QualType → String → Except Err String
  | [], buffer => .ok buffer
  | arg :: next, buffer =>
    match deref h arg with
    | .error e => .error e
    | .ok t =>
      match typeName t buffer with
      | .error e => .error e
      | .ok b => printArgumentList typeName h next (if next ≠ [] then b ++ ", " else b)

/-- The method `Type::printFull`, called on the node `t` of the store `h`. -/
def printFull (exprPrint : Expr → Nat → String) (h : Heap) :
    Nat → TypeNode → String → Nat → Except Err String
  | 0, _, _, _ => .error .outOfFuel
  | fuel + 1, t, buffer, indent =>
    let memberLine : String → DeclExpr → Except Err String := fun b mem =>
      match deref h mem.type with
      | .error e => .error e
      | .ok mt =>
        match printFull exprPrint h fuel mt (StringBuilder.indent b (2 * (indent + 1)))
            (indent + 1) with
        | .error e => .error e
        | .ok b1 => .ok (b1 ++ " " ++ mem.name ++ ";\n")
    match t.kind with
    | .USER => .error (.assertion "TODO")
    | .BUILTIN => appendCStr buffer t.name
    | .STRUCT =>
      match forMembers memberLine (t.members.getD [])
          (StringBuilder.indent buffer indent ++ "struct " ++ " \x7b\n") with
      | .error e => .error e
      | .ok b => .ok (StringBuilder.indent b indent ++ "\x7d")
    | .UNION =>
      match forMembers memberLine (t.members.getD [])
          (StringBuilder.indent buffer indent ++ "union " ++ " \x7b\n") with
      | .error e => .error e
      | .ok b => .ok (StringBuilder.indent b indent ++ "\x7d")
    | .ENUM =>
      .ok (StringBuilder.indent (StringBuilder.indent buffer indent ++ "enum " ++ " \x7b\n")
        indent ++ "\x7d")
    | .FUNC =>
      if t.refType.isValid then
        match deref h t.refType with
        | .error e => .error e
        | .ok r =>
          match printName exprPrint h fuel r
              (StringBuilder.indent buffer indent ++ "func " ++ " ") with
          | .error e => .error e
          | .ok b =>
            match printArgumentList (printName exprPrint h fuel) h t.arguments (b ++ "(") with
            | .error e => .error e
            | .ok b1 => .ok (b1 ++ ")")
      else .error (.assertion "refType.isValid()")
    | .POINTER =>
      match deref h t.refType with
      | .error e => .error e
      | .ok r =>
        match printFull exprPrint h fuel r buffer indent with
        | .error e => .error e
        | .ok b => .ok (b ++ "*")
    | .ARRAY =>
      match deref h t.refType with
      | .error e => .error e
      | .ok r =>
        match printFull exprPrint h fuel r buffer indent with
        | .error e => .error e
        | .ok b => .ok (printArray exprPrint b t.arrayExpr)

/-- The body of `QualType::print`, given the method `Type::print` as `typePrint`.
The parameter `recursive` is received but `RECURSE_ALL` is what is passed on. -/
def QualType.printWith
    (typePrint : TypeNode → Nat → String → RecursionType → Except Err String)
    (env : PrintEnv) (h : Heap) (q : QualType) (indent : Nat) (buffer : String)
    (_recursive : RecursionType) : Except Err String :=
  match q.type with
  | none => .ok (StringBuilder.indent buffer indent ++ "NULL")
  | some a =>
    match h[a]? with
    | none => .error .invalidPointer
    | some t =>
      match typePrint t indent buffer .RECURSE_ALL with
      | .error e => .error e
      | .ok b =>
        if q.qualifiers ≠ 0 then
          .ok (printQualifiers env (StringBuilder.indent b indent ++ "qualifiers=")
            q.qualifiers ++ "\n")
        else .ok b

/-- The `while (arg)` loop of `Type::print` over the chain of arguments: one
indented line with the name of each argument's type. -/
def printArgumentLines (typeName : TypeNode → String → Except Err String) (h : Heap)
    (indent : Nat) : List QualType → String → Except Err String
  | [], buffer => .ok buffer
  | arg :: next, buffer =>
    match deref h arg with
    | .error e => .error e
    | .ok t =>
      match typeName t (StringBuilder.indent buffer indent) with
      | .error e => .error e
      | .ok b => printArgumentLines typeName h indent next (b ++ "\n")

/-- The method `Type::print`, called on the node `t` of the store `h`. -/
def print (env : PrintEnv) (h : Heap) :
    Nat → TypeNode → Nat → String → RecursionType → Except Err String
  | 0, _, _, _, _ => .error .outOfFuel
  | fuel + 1, t, indent, buffer, recursive =>
    let b0 := StringBuilder.indent buffer indent ++ "[type] "
    match t.kind with
    | .BUILTIN =>
      match appendCStr (b0 ++ "(builtin) ") t.name with
      | .error e => .error e
      | .ok b => .ok (b ++ "\n")
    | .USER =>
      match t.userType with
      | none => .error (.assertion "userType")
      | some u =>
        let b1 := b0 ++ "(user)\n" ++ env.exprPrint u (indent + env.INDENT)
        if t.refType.isValid && recursive != .RECURSE_NONE then
          match deref h t.refType with
          | .error e => .error e
          | .ok r =>
            match printName env.exprPrint h fuel r
                (StringBuilder.indent b1 (indent + env.INDENT) ++ env.ANSI_CYAN
                  ++ "resolved to:" ++ env.ANSI_NORMAL ++ " ") with
            | .error e => .error e
            | .ok b => .ok (b ++ "\n")
        else .ok b1
    | .UNION =>
      forMembers (fun b mem =>
          match deref h mem.type with
          | .error e => .error e
          | .ok mt =>
            print env h fuel mt (indent + env.INDENT)
              (StringBuilder.indent b (2 * (indent + 1))) recursive)
        (t.members.getD []) (b0 ++ "(union)\n")
    | .ENUM =>
      if t.members.isSome && recursive != .RECURSE_NONE then
        forMembers (fun b mem => .ok (b ++ env.declPrint mem (indent + env.INDENT)))
          (t.members.getD []) (b0 ++ "(enum)\n")
      else .ok (b0 ++ "(enum)\n")
    | .STRUCT =>
      forMembers (fun b mem =>
          match deref h mem.type with
          | .error e => .error e
          | .ok mt => print env h fuel mt (indent + env.INDENT) b recursive)
        (t.members.getD []) (b0 ++ "(struct)\n")
    | .FUNC =>
      let b1 := StringBuilder.indent (b0 ++ "(func)\n") (indent + env.INDENT)
        ++ env.COL_ATTR ++ "returnType:" ++ env.ANSI_NORMAL ++ "\n"
      match deref h t.refType with
      | .error e => .error e
      | .ok r =>
        match printName env.exprPrint h fuel r
            (StringBuilder.indent b1 (indent + env.INDENT)) with
        | .error e => .error e
        | .ok b2 =>
          let b3 := b2 ++ "\n"
          let b4 := if t.arguments ≠ [] then
              StringBuilder.indent b3 (indent + env.INDENT)
                ++ env.COL_ATTR ++ "args:" ++ env.ANSI_NORMAL ++ "\n"
            else b3
          printArgumentLines (printName env.exprPrint h fuel) h (indent + env.INDENT)
            t.arguments b4
    | .POINTER =>
      QualType.printWith (print env h fuel) env h t.refType (indent + env.INDENT)
        (b0 ++ "(pointer)\n") recursive
    | .ARRAY =>
      match QualType.printWith (print env h fuel) env h t.refType (indent + env.INDENT)
          (b0 ++ "(array)\n") recursive with
      | .error e => .error e
      | .ok b =>
        match t.arrayExpr with
        | none => .ok b
        | some e =>
          .ok (StringBuilder.indent b indent ++ env.COL_ATTR ++ "size:" ++ env.ANSI_NORMAL
            ++ "\n" ++ env.exprPrint e (indent + env.INDENT))

namespace QualType

/-- Modelled from the spec: `QualType::setQualifiers` is defined in `Type.h`,
which is not part of the sources; it replaces the qualifier bits of the handle. -/
def setQualifiers (q : QualType) (flags : Nat) : QualType :=
  { q with qualifiers := flags }

/-- The method `QualType::getCanonicalType`; `type->CanonicalType` follows the
pointer of the handle without a check. -/
def getCanonicalType (h : Heap) (q : QualType) : Except Err QualType :=
  match q.type with
  | none => .error .invalidPointer
  | some a =>
    match h[a]? with
    | none => .error .invalidPointer
    | some t => .ok (t.CanonicalType.setQualifiers q.qualifiers)

/-- The method `QualType::printName`. -/
def printName (exprPrint : Expr → Nat → String) (h : Heap) (fuel : Nat) (q : QualType)
    (buffer : String) : Except Err String :=
  match deref h q with
  | .error e => .error e
  | .ok t => C2.printName exprPrint h fuel t buffer

/-- The method `QualType::print`. -/
def print (env : PrintEnv) (h : Heap) (fuel : Nat) (q : QualType) (indent : Nat)
    (buffer : String) (recursive : RecursionType) : Except Err String :=
  QualType.printWith (C2.print env h fuel) env h q indent buffer recursive

/-- The method `QualType::dump`: the text written to the error stream. -/
def dump (env : PrintEnv) (h : Heap) (fuel : Nat) (q : QualType) : Except Err String :=
  match QualType.print env h fuel q 0 "" .RECURSE_ALL with
  | .error e => .error e
  | .ok buffer => .ok ("[QUALTYPE] " ++ buffer ++ "\n")

end QualType

/-! ### The builtin registry -/

namespace BuiltinType

/-- Addresses of the static objects `type_u8` … `type_void`, in the order of
their definitions. -/
def type_u8 : Addr := 0
def type_u16 : Addr := 1
def type_u32 : Addr := 2
def type_u64 : Addr := 3
def type_i8 : Addr := 4
def type_i16 : Addr := 5
def type_i32 : Addr := 6
def type_i64 : Addr := 7
def type_int : Addr := 8
def type_char : Addr := 9
def type_string : Addr := 10
def type_f32 : Addr := 11
def type_f64 : Addr := 12
def type_bool : Addr := 13
def type_void : Addr := 14

/-- The fifteen static objects, each constructed by `Type(Type::BUILTIN)`. -/
def statics : Except Err Heap :=
  (List.range 15).mapM (fun _ => TypeNode.new .BUILTIN QualType.null)

/-- One line of the constructor: `obj.setBuiltinName(ct, name, cname, width)`. -/
def setName (h : Heap) (obj : Addr) (ct : C2Type) (name cname : String) (width : Nat) :
    Except Err Heap :=
  h.call obj (fun t => .ok (t.setBuiltinName ct name cname width))

/-- The constructor `BuiltinType::BuiltinType()`, line by line. -/
def init (h0 : Heap) : Except Err Heap := do
  let h ← setName h0 type_u8 .TYPE_U8 "u8" "unsigned char" 1
  let h ← setName h type_u16 .TYPE_U16 "u16" "unsigned short" 2
  let h ← setName h type_u32 .TYPE_U32 "u32" "unsigned int" 4
  let h ← setName h type_u32 .TYPE_U64 "u64" "unsigned long long" 4
  let h ← setName h type_i8 .TYPE_I8 "i8" "char" 1
  let h ← setName h type_i16 .TYPE_I16 "i16" "short" 2
  let h ← setName h type_i32 .TYPE_I32 "i32" "int" 4
  let h ← setName h type_i64 .TYPE_I64 "i64" "long long" 4
  let h ← setName h type_int .TYPE_INT "int" "int" 4
  let h ← setName h type_char .TYPE_CHAR "char" "char" 1
  let h ← setName h type_string .TYPE_STRING "string" "const char*" 4
  let h ← setName h type_f32 .TYPE_F32 "f32" "float" 4
  let h ← setName h type_f64 .TYPE_F64 "f64" "double" 8
  let h ← setName h type_bool .TYPE_BOOL "bool" "int" 1
  setName h type_void .TYPE_VOID "void" "void" 0

/-- The store once the registry `static BuiltinType types` is initialised. -/
def registry : Except Err Heap :=
  match statics with
  | .error e => .error e
  | .ok h0 => init h0

/-- The method `BuiltinType::get`: the pointer returned for the primitive kind `t`. -/
def get (t : C2Type) : Option Addr :=
  match t with
  | .TYPE_U8 => some type_u8
  | .TYPE_U16 => some type_u16
  | .TYPE_U32 => some type_u32
  | .TYPE_U64 => some type_u64
  | .TYPE_I8 => some type_i8
  | .TYPE_I16 => some type_i16
  | .TYPE_I32 => some type_i32
  | .TYPE_I64 => some type_i64
  | .TYPE_INT => some type_int
  | .TYPE_STRING => some type_string
  | .TYPE_FLOAT => some type_f32
  | .TYPE_F32 => some type_f32
  | .TYPE_F64 => some type_f64
  | .TYPE_CHAR => some type_char
  | .TYPE_BOOL => some type_bool
  | .TYPE_VOID => some type_void

/-- The display name that the constructor's line for the primitive kind `t`
gives (`TYPE_FLOAT` has no line of its own and shares the object of `TYPE_F32`). -/
def displayName (t : C2Type) : String :=
  match t with
  | .TYPE_U8 => "u8"
  | .TYPE_U16 => "u16"
  | .TYPE_U32 => "u32"
  | .TYPE_U64 => "u64"
  | .TYPE_I8 => "i8"
  | .TYPE_I16 => "i16"
  | .TYPE_I32 => "i32"
  | .TYPE_I64 => "i64"
  | .TYPE_INT => "int"
  | .TYPE_STRING => "string"
  | .TYPE_FLOAT => "f32"
  | .TYPE_F32 => "f32"
  | .TYPE_F64 => "f64"
  | .TYPE_CHAR => "char"
  | .TYPE_BOOL => "bool"
  | .TYPE_VOID => "void"

end BuiltinType

/-! ### The type context -/

/-- The class `TypeContext`: the vector `types` of the nodes it owns, in order of
creation, together with the store `heap` that its pointers refer to. -/
structure TypeContext where
  heap : Heap
  types : List Addr
  deriving DecidableEq, Repr

namespace TypeContext

/-- The statement pair `T = new Type(..)`, `types.push_back(T)`: the object is
placed at the first unused address, which is appended to `types`. -/
def push (c : TypeContext) (t : TypeNode) : TypeContext :=
  { heap := c.heap ++ [t], types := c.types ++ [c.heap.length] }

/-- The method `TypeContext::getUser`. -/
def getUser (c : TypeContext) : Except Err (Addr × TypeContext) :=
  match TypeNode.new .USER QualType.null with
  | .error e => .error e
  | .ok T => .ok (c.heap.length, c.push T)

/-- The loop of `TypeContext::getPointer` over the remaining entries of `types`:
the first pointer node whose `refType` equals `ref`, if there is one. -/
def findPointer (h : Heap) (ref : QualType) : List Addr → Except Err (Option Addr)
  | [] => .ok none
  | t :: rest =>
    match h[t]? with
    | none => .error .invalidPointer
    | some n =>
      if n.isPointerType && n.getRefType == ref then .ok (some t)
      else findPointer h ref rest

/-- The method `TypeContext::getPointer`. -/
def getPointer (c : TypeContext) (ref : QualType) : Except Err (QualType × TypeContext) :=
  match findPointer c.heap ref c.types with
  | .error e => .error e
  | .ok (some t) => .ok (QualType.ofType t, c)
  | .ok none =>
    match TypeNode.new .POINTER ref with
    | .error e => .error e
    | .ok N => .ok (QualType.ofType c.heap.length, c.push N)

/-- The method `TypeContext::getStruct`. -/
def getStruct (c : TypeContext) (isStruct : Bool) : Except Err (Addr × TypeContext) :=
  match TypeNode.new (if isStruct then .STRUCT else .UNION) QualType.null with
  | .error e => .error e
  | .ok T => .ok (c.heap.length, c.push T)

/-- The method `TypeContext::getEnum`. -/
def getEnum (c : TypeContext) : Except Err (Addr × TypeContext) :=
  match TypeNode.new .ENUM QualType.null with
  | .error e => .error e
  | .ok T => .ok (c.heap.length, c.push T)

/-- The method `TypeContext::getArray`. -/
def getArray (c : TypeContext) (ref : QualType) (sizeExpr : Option Expr) (ownSize : Bool) :
    Except Err (QualType × TypeContext) :=
  match TypeNode.new .ARRAY ref with
  | .error e => .error e
  | .ok T => .ok (QualType.ofType c.heap.length, c.push (T.setArrayExpr sizeExpr ownSize))

/-- The method `TypeContext::getFunction`. -/
def getFunction (c : TypeContext) (rtype : QualType) : Except Err (Addr × TypeContext) :=
  match TypeNode.new .FUNC QualType.null with
  | .error e => .error e
  | .ok proto =>
    match proto.setReturnType rtype with
    | .error e => .error e
    | .ok proto1 => .ok (c.heap.length, c.push proto1)

/-- Call of a mutating method of `Type` on a node of the store. -/
def call (c : TypeContext) (a : Addr) (f : TypeNode → Except Err TypeNode) :
    Except Err TypeContext :=
  match c.heap.call a f with
  | .error e => .error e
  | .ok h => .ok { c with heap := h }

/-- Every pointer held in `types` refers to an object of the store. -/
def WF (c : TypeContext) : Prop := ∀ a ∈ c.types, a < c.heap.length

instance (c : TypeContext) : Decidable c.WF := by
  unfold WF; infer_instance

end TypeContext

/-- The calls a client makes on a context and on the nodes it hands out. -/
inductive Op where
  | getUser
  | getPointer (ref : QualType)
  | getStruct (isStruct : Bool)
  | getEnum
  | getArray (ref : QualType) (sizeExpr : Option Expr) (ownSize : Bool)
  | getFunction (rtype : QualType)
  | setMembers (t : Addr) (members : Option MemberList)
  | setReturnType (t : Addr) (type : QualType)
  | addArgument (t : Addr) (type : QualType)
  | setRefType (t : Addr) (type : QualType)
  deriving Repr

/-- The context after one call (the value returned by a factory is dropped). -/
def step (c : TypeContext) : Op → Except Err TypeContext
  | .getUser => (c.getUser).map Prod.snd
  | .getPointer ref => (c.getPointer ref).map Prod.snd
  | .getStruct isStruct => (c.getStruct isStruct).map Prod.snd
  | .getEnum => (c.getEnum).map Prod.snd
  | .getArray ref sizeExpr ownSize => (c.getArray ref sizeExpr ownSize).map Prod.snd
  | .getFunction rtype => (c.getFunction rtype).map Prod.snd
  | .setMembers t members => c.call t (fun n => n.setMembers members)
  | .setReturnType t type => c.call t (fun n => n.setReturnType type)
  | .addArgument t type => c.call t (fun n => n.addArgument type)
  | .setRefType t type => c.call t (fun n => n.setRefType type)

/-- The context after a sequence of calls, made in order. -/
def run (c : TypeContext) : List Op → Except Err TypeContext
  | [] => .ok c
  | op :: ops =>
    match step c op with
    | .error e => .error e
    | .ok c1 => run c1 ops

/-! ### Outcomes of fuelled runs and shapes of type graphs -/

/-- The run `f` (a call indexed by its depth bound) has the outcome `r` for every
bound from some bound on: with `r = .ok v` the call returns `v`, with
`r = .error (.assertion _)` it fails. -/
def Yields {α : Type} (f : Nat → Except Err α) (r : Except Err α) : Prop :=
  ∃ n0, ∀ n, n0 ≤ n → f n = r

/-- The nodes of the store `h` that are built only from `Builtin`, `Pointer` and
`Array` nodes. -/
inductive BuiltinPointerArray (h : Heap) : TypeNode → Prop where
  | builtin (t : TypeNode) : t.kind = .BUILTIN → BuiltinPointerArray h t
  | pointer (t r : TypeNode) : t.kind = .POINTER → deref h t.refType = .ok r →
      BuiltinPointerArray h r → BuiltinPointerArray h t
  | array (t r : TypeNode) : t.kind = .ARRAY → deref h t.refType = .ok r →
      BuiltinPointerArray h r → BuiltinPointerArray h t

/-- The receiver `t` of a compatibility check against `t2` is a `User` node, or
both are `Pointer` nodes, or both `Array` nodes, whose elements are so related:
the comparison reaches a `User` node on the receiver side. -/
inductive ReceiverReachesUser (h : Heap) : TypeNode → TypeNode → Prop where
  | user (t t2 : TypeNode) : t.kind = .USER → ReceiverReachesUser h t t2
  | pointer (t t2 r r2 : TypeNode) : t.kind = .POINTER → t2.kind = .POINTER →
      deref h t.refType = .ok r → deref h t2.refType = .ok r2 →
      ReceiverReachesUser h r r2 → ReceiverReachesUser h t t2
  | array (t t2 r r2 : TypeNode) : t.kind = .ARRAY → t2.kind = .ARRAY →
      deref h t.refType = .ok r → deref h t2.refType = .ok r2 →
      ReceiverReachesUser h r r2 → ReceiverReachesUser h t t2

/-- The width of `t` is that of a `Struct` or `Union`: `t` is one, or it is an
`Array` or a resolved `User` whose `refType` refers to such a node. -/
inductive WidthOfAggregate (h : Heap) : TypeNode → Prop where
  | struct (t : TypeNode) : t.kind = .STRUCT → WidthOfAggregate h t
  | union (t : TypeNode) : t.kind = .UNION → WidthOfAggregate h t
  | array (t r : TypeNode) : t.kind = .ARRAY → deref h t.refType = .ok r →
      WidthOfAggregate h r → WidthOfAggregate h t
  | user (t r : TypeNode) : t.kind = .USER → deref h t.refType = .ok r →
      WidthOfAggregate h r → WidthOfAggregate h t

/-! ### Sample data -/

/-- A user node as `getUser` creates it. -/
def sampleUser : TypeNode :=
  { kind := .USER, refType := QualType.null, CanonicalType := QualType.null,
    userType := none, sname := none, members := none, arguments := [],
    arrayExpr := none, ownArrayExpr := false,
    name := none, cname := none, width := 0, c2type := none }

/-- A context that owns two user nodes, at addresses 0 and 1. -/
def sampleContext : TypeContext := ⟨[sampleUser, sampleUser], [0, 1]⟩

/-- The builtin node named "int", as the registry sets it up. -/
def sampleInt : TypeNode :=
  { sampleUser with kind := .BUILTIN, name := some "int", cname := some "int", width := 4,
                    c2type := some .TYPE_INT }

/-- A store with the builtin "int" at 0, an unresolved user node at 1, a struct
node at 2, a pointer to "int" at 3, a const-qualified pointer to the pointer at 4,
an array of the struct at 5, and a user node resolved to that array at 6. -/
def sampleHeap : Heap :=
  [ sampleInt,
    sampleUser,
    { sampleUser with kind := .STRUCT },
    { sampleUser with kind := .POINTER, refType := QualType.ofType 0 },
    { sampleUser with kind := .POINTER, refType := ⟨some 3, 1⟩ },
    { sampleUser with kind := .ARRAY, refType := QualType.ofType 2 },
    { sampleUser with refType := QualType.ofType 5 } ]

/-- The run `f` never finishes: whatever the bound on the call depth, it is
reached. -/
def Diverges {α : Type} (f : Nat → Except Err α) : Prop :=
  ∀ n, f n = .error .outOfFuel

/-- The factory call on `c` returned the address `a` and the context `c1`: `a` is
none of the entries of `c`, it is appended as the last entry, and the store is the
old store with the one new node `node` at `a`. -/
def AddsFreshNode (c : TypeContext) (a : Addr) (c1 : TypeContext) (node : TypeNode) : Prop :=
  a ∉ c.types ∧ c1.types = c.types ++ [a] ∧ c1.heap = c.heap ++ [node] ∧
    c1.heap[a]? = some node

/-- No two distinct entries of `types` are pointer nodes with equal element
handles. -/
def PointersInterned (c : TypeContext) : Prop :=
  ∀ (a b : Addr) (na nb : TypeNode), a ∈ c.types → b ∈ c.types →
    c.heap[a]? = some na → c.heap[b]? = some nb →
    na.kind = .POINTER → nb.kind = .POINTER → na.refType = nb.refType → a = b

/-- The lines `ls`, one after the other. -/
def concatLines : List String → String
  | [] => ""
  | l :: ls => l ++ concatLines ls

/-- The names of the qualifiers set in `flags`, as `printQualifiers` writes them:
"volatile " first, then "const ". -/
def qualifierNames (env : PrintEnv) (flags : Nat) : String :=
  (if flags &&& env.QUAL_VOLATILE ≠ 0 then "volatile " else "") ++
    (if flags &&& env.QUAL_CONST ≠ 0 then "const " else "")

/-- An environment for the printers: expressions print as `<e>` and their
number, members as their name, `INDENT` is 2, the colour markers are `<C>`, `<N>`
and `<A>`, and the qualifier bits are 1 for `const` and 2 for `volatile`. -/
def sampleEnv : PrintEnv :=
  { exprPrint := fun e _ => "<e" ++ toString e.ident ++ ">\n",
    declPrint := fun d _ => d.name ++ "\n",
    INDENT := 2, ANSI_CYAN := "<C>", ANSI_NORMAL := "<N>", COL_ATTR := "<A>",
    QUAL_CONST := 1, QUAL_VOLATILE := 2 }

/-- The struct `Node` whose only member `next` is a pointer to the struct itself. -/
def sampleNode : TypeNode :=
  { sampleUser with kind := .STRUCT, sname := some "Node",
                    members := some [⟨"next", QualType.ofType 1⟩] }

/-- The struct `Point` with the members `int x` and `int y`. -/
def samplePoint : TypeNode :=
  { sampleUser with kind := .STRUCT, sname := some "Point",
                    members := some [⟨"x", QualType.ofType 2⟩, ⟨"y", QualType.ofType 2⟩] }

/-- A user node named by expression 7 and resolved to "int". -/
def sampleAlias : TypeNode :=
  { sampleUser with userType := some ⟨7⟩, refType := QualType.ofType 2 }

/-- A store with the struct `Node` at 0, the pointer to it at 1, the builtin "int"
at 2, the struct `Point` at 3, the pointer to `Point` at 4, the alias of "int" at
5, the pointer to the alias at 6, and the array (without size) of the pointer to
"int" at 8, that pointer being at 7. -/
def sampleGraph : Heap :=
  [ sampleNode,
    { sampleUser with kind := .POINTER, refType := QualType.ofType 0 },
    sampleInt,
    samplePoint,
    { sampleUser with kind := .POINTER, refType := QualType.ofType 3 },
    sampleAlias,
    { sampleUser with kind := .POINTER, refType := QualType.ofType 5 },
    { sampleUser with kind := .POINTER, refType := QualType.ofType 2 },
    { sampleUser with kind := .ARRAY, refType := QualType.ofType 7 } ]

/-! ## Properties -/

/-! ### Interning of pointer types -/

namespace TypeContext

theorem findPointer_append_heap (h : Heap) (N : TypeNode) (ref : QualType) :
    ∀ ts : List Addr, (∀ a ∈ ts, a < h.length) →
      findPointer (h ++ [N]) ref ts = findPointer h ref ts := by
  intro ts
  induction ts with
  | nil => intro _; rfl
  | cons t rest ih =>
    intro hts
    have ht : t < h.length := hts t (List.mem_cons_self _ _)
    have hrest : ∀ a ∈ rest, a < h.length := fun a ha => hts a (List.mem_cons_of_mem _ ha)
    simp only [findPointer, List.getElem?_append_left ht, ih hrest]

theorem findPointer_total (h : Heap) (ref : QualType) :
    ∀ ts : List Addr, (∀ a ∈ ts, a < h.length) → ∃ r, findPointer h ref ts = .ok r := by
  intro ts
  induction ts with
  | nil => intro _; exact ⟨none, rfl⟩
  | cons t rest ih =>
    intro hts
    have ht : t < h.length := hts t (List.mem_cons_self _ _)
    have hrest : ∀ a ∈ rest, a < h.length := fun a ha => hts a (List.mem_cons_of_mem _ ha)
    obtain ⟨n, hn⟩ : ∃ n, h[t]? = some n := ⟨h[t], List.getElem?_eq_getElem ht⟩
    simp only [findPointer, hn]
    split
    · exact ⟨some t, rfl⟩
    · exact ih hrest

theorem findPointer_append_types (h : Heap) (ref : QualType) (x : Addr) :
    ∀ ts : List Addr, findPointer h ref ts = .ok none →
      findPointer h ref (ts ++ [x]) = findPointer h ref [x] := by
  intro ts
  induction ts with
  | nil => intro _; rfl
  | cons t rest ih =>
    intro hf
    simp only [findPointer, List.cons_append] at hf ⊢
    cases hn : h[t]? with
    | none => simp [hn] at hf
    | some n =>
      simp only [hn] at hf ⊢
      split at hf
      · simp at hf
      · rename_i hc
        simp only [hc]
        exact ih hf

/-- What a successful scan found: an entry of `types` that is a pointer node with
element handle `ref`. -/
theorem findPointer_some (h : Heap) (ref : QualType) (a : Addr) :
    ∀ ts : List Addr, findPointer h ref ts = .ok (some a) →
      a ∈ ts ∧ ∃ n, h[a]? = some n ∧ n.kind = .POINTER ∧ n.refType = ref := by
  intro ts
  induction ts with
  | nil => intro hf; simp [findPointer] at hf
  | cons t rest ih =>
    intro hf
    simp only [findPointer] at hf
    cases hn : h[t]? with
    | none => simp [hn] at hf
    | some n =>
      simp only [hn] at hf
      split at hf
      · rename_i hc
        simp only [Except.ok.injEq, Option.some.injEq] at hf
        subst hf
        simp only [TypeNode.isPointerType, TypeNode.getRefType, Bool.and_eq_true,
          beq_iff_eq] at hc
        exact ⟨List.mem_cons_self _ _, n, hn, hc.1, hc.2⟩
      · obtain ⟨hm, hr⟩ := ih hf
        exact ⟨List.mem_cons_of_mem _ hm, hr⟩

theorem new_pointer_ok (ref : QualType) (hv : ref.isValid = true) :
    ∃ N, TypeNode.new .POINTER ref = .ok N ∧ N.kind = .POINTER ∧ N.refType = ref := by
  simp only [TypeNode.new, hv, if_true, Except.ok.injEq, exists_eq_left', and_self]

theorem push_WF (c : TypeContext) (T : TypeNode) (hwf : c.WF) : (c.push T).WF := by
  intro a ha
  simp only [push, List.mem_append, List.mem_singleton, List.length_append,
    List.length_singleton] at ha ⊢
  rcases ha with ha | ha
  · exact Nat.lt_succ_of_lt (hwf a ha)
  · subst ha; exact Nat.lt_succ_self _

theorem push_heap_get (c : TypeContext) (T : TypeNode) (b : Addr) (m : TypeNode)
    (hb : c.heap[b]? = some m) : (c.push T).heap[b]? = some m := by
  have hlt : b < c.heap.length := (List.getElem?_eq_some_iff.mp hb).1
  simpa only [push, List.getElem?_append_left hlt] using hb

/-- What `getPointer` delivers on a well-formed context: a handle without
qualifiers to a pointer node with element handle `e`, in a context that is again
well formed and in which every node of the old store is unchanged. -/
theorem getPointer_spec (c : TypeContext) (e : QualType) (hwf : c.WF)
    (he : e.isValid = true) :
    ∃ a c1 n, c.getPointer e = .ok (QualType.ofType a, c1) ∧ c1.WF ∧
      c1.heap[a]? = some n ∧ n.kind = .POINTER ∧ n.refType = e ∧
      (∀ (b : Addr) (m : TypeNode), c.heap[b]? = some m → c1.heap[b]? = some m) := by
  obtain ⟨r, hr⟩ := findPointer_total c.heap e c.types hwf
  cases r with
  | some t =>
    obtain ⟨_, n, hn, hk, href⟩ := findPointer_some _ _ _ _ hr
    exact ⟨t, c, n, by simp only [getPointer, hr], hwf, hn, hk, href, fun _ _ hb => hb⟩
  | none =>
    obtain ⟨N, hN, hk, href⟩ := new_pointer_ok e he
    exact ⟨c.heap.length, c.push N, N, by simp only [getPointer, hr, hN], push_WF c N hwf,
      by simp [push], hk, href, push_heap_get c N⟩

/-- A method that refuses pointer nodes leaves every pointer node of the store as
it is, and the store keeps its size. -/
theorem call_frame (c c1 : TypeContext) (b : Addr) (f : TypeNode → Except Err TypeNode)
    (hf : ∀ n n1, f n = .ok n1 → n.kind ≠ .POINTER)
    (hc : c.call b f = .ok c1) :
    c1.types = c.types ∧ c1.heap.length = c.heap.length ∧
      ∀ (a : Addr) (n : TypeNode), c.heap[a]? = some n → n.kind = .POINTER → c1.heap[a]? = some n := by
  simp only [call, Heap.call] at hc
  cases hb : c.heap[b]? with
  | none => simp [hb] at hc
  | some t =>
    simp only [hb] at hc
    cases hft : f t with
    | error e => simp [hft] at hc
    | ok t1 =>
      simp only [hft, Except.ok.injEq] at hc
      subst hc
      refine ⟨rfl, by simp, ?_⟩
      intro a n ha hk
      by_cases hab : b = a
      · subst hab
        rw [hb] at ha
        cases ha
        exact absurd hk (hf _ _ hft)
      · simpa [List.getElem?_set_ne hab] using ha

end TypeContext

theorem setMembers_not_pointer (m : Option MemberList) (n n1 : TypeNode)
    (h : n.setMembers m = .ok n1) : n.kind ≠ .POINTER := by
  intro hk
  simp [TypeNode.setMembers, hk] at h

theorem setReturnType_not_pointer (q : QualType) (n n1 : TypeNode)
    (h : n.setReturnType q = .ok n1) : n.kind ≠ .POINTER := by
  intro hk
  simp [TypeNode.setReturnType, hk] at h

theorem addArgument_not_pointer (q : QualType) (n n1 : TypeNode)
    (h : n.addArgument q = .ok n1) : n.kind ≠ .POINTER := by
  intro hk
  simp [TypeNode.addArgument, hk] at h

theorem setRefType_not_pointer (q : QualType) (n n1 : TypeNode)
    (h : n.setRefType q = .ok n1) : n.kind ≠ .POINTER := by
  intro hk
  simp [TypeNode.setRefType, hk] at h

/-- One call keeps the context well formed and leaves every pointer node of the
store as it is. -/
theorem step_frame (c c1 : TypeContext) (op : Op) (hwf : c.WF) (hs : step c op = .ok c1) :
    c1.WF ∧ ∀ (a : Addr) (n : TypeNode), c.heap[a]? = some n → n.kind = .POINTER → c1.heap[a]? = some n := by
  have hpush : ∀ T : TypeNode, (c.push T).WF ∧
      ∀ (a : Addr) (n : TypeNode), c.heap[a]? = some n → n.kind = .POINTER → (c.push T).heap[a]? = some n :=
    fun T => ⟨TypeContext.push_WF c T hwf, fun a n ha _ => TypeContext.push_heap_get c T a n ha⟩
  have hcall : ∀ (b : Addr) (f : TypeNode → Except Err TypeNode),
      (∀ n n1, f n = .ok n1 → n.kind ≠ .POINTER) → c.call b f = .ok c1 →
      c1.WF ∧ ∀ (a : Addr) (n : TypeNode), c.heap[a]? = some n → n.kind = .POINTER → c1.heap[a]? = some n := by
    intro b f hf hc
    obtain ⟨ht, hl, hp⟩ := TypeContext.call_frame c c1 b f hf hc
    refine ⟨?_, hp⟩
    intro a ha
    rw [ht] at ha
    rw [hl]
    exact hwf a ha
  cases op with
  | getUser =>
    simp only [step, TypeContext.getUser, TypeNode.new, QualType.isNull, QualType.null,
      Option.isNone_none, if_true, Except.map, Except.ok.injEq] at hs
    subst hs; exact hpush _
  | getPointer ref =>
    simp only [step, TypeContext.getPointer] at hs
    split at hs
    · simp [Except.map] at hs
    · simp only [Except.map, Except.ok.injEq] at hs
      subst hs; exact ⟨hwf, fun _ _ ha _ => ha⟩
    · split at hs
      · simp [Except.map] at hs
      · simp only [Except.map, Except.ok.injEq] at hs
        subst hs; exact hpush _
  | getStruct isStruct =>
    cases isStruct <;>
    · simp only [step, TypeContext.getStruct, TypeNode.new, QualType.isNull, QualType.null,
        Option.isNone_none, if_true, Except.map, Except.ok.injEq, Bool.false_eq_true,
        if_false] at hs
      subst hs; exact hpush _
  | getEnum =>
    simp only [step, TypeContext.getEnum, TypeNode.new, QualType.isNull, QualType.null,
      Option.isNone_none, if_true, Except.map, Except.ok.injEq] at hs
    subst hs; exact hpush _
  | getArray ref sizeExpr ownSize =>
    simp only [step, TypeContext.getArray] at hs
    split at hs
    · simp [Except.map] at hs
    · simp only [Except.map, Except.ok.injEq] at hs
      subst hs; exact hpush _
  | getFunction rtype =>
    simp only [step, TypeContext.getFunction, TypeNode.new, QualType.isNull, QualType.null,
      Option.isNone_none, if_true, TypeNode.setReturnType, Except.map,
      Except.ok.injEq] at hs
    subst hs; exact hpush _
  | setMembers t members => exact hcall t _ (setMembers_not_pointer members) hs
  | setReturnType t type => exact hcall t _ (setReturnType_not_pointer type) hs
  | addArgument t type => exact hcall t _ (addArgument_not_pointer type) hs
  | setRefType t type => exact hcall t _ (setRefType_not_pointer type) hs

/-- A sequence of calls keeps the context well formed and leaves every pointer
node of the store as it is. -/
theorem run_frame (ops : List Op) : ∀ (c c1 : TypeContext), c.WF → run c ops = .ok c1 →
    c1.WF ∧ ∀ (a : Addr) (n : TypeNode), c.heap[a]? = some n → n.kind = .POINTER → c1.heap[a]? = some n := by
  induction ops with
  | nil =>
    intro c c1 hwf hr
    simp only [run, Except.ok.injEq] at hr
    subst hr; exact ⟨hwf, fun _ _ ha _ => ha⟩
  | cons op ops ih =>
    intro c c1 hwf hr
    simp only [run] at hr
    cases hs : step c op with
    | error e => simp [hs] at hr
    | ok c0 =>
      simp only [hs] at hr
      obtain ⟨hwf0, hp0⟩ := step_frame c c0 op hwf hs
      obtain ⟨hwf1, hp1⟩ := ih c0 c1 hwf0 hr
      exact ⟨hwf1, fun a n ha hk => hp1 a n (hp0 a n ha hk) hk⟩

namespace TypeContext

/-- C1: on a context whose entries all refer to live nodes, `getPointer(e)` for a
valid element handle `e` returns a pointer node with element `e`, and a second
`getPointer(e)` right after it returns the same handle (the same node) and leaves
the context as it was: no node is added to the store or to `types`. -/
theorem getPointer_twice_same_node (c : TypeContext) (e : QualType)
    (hwf : c.WF) (he : e.isValid = true) :
    ∃ p c1, c.getPointer e = .ok (p, c1) ∧ c1.getPointer e = .ok (p, c1) ∧
      ∃ n, deref c1.heap p = .ok n ∧ n.kind = .POINTER ∧ n.refType = e := by
  obtain ⟨a, c1, n, hg, _, hn, hk, href, _⟩ := getPointer_spec c e hwf he
  refine ⟨QualType.ofType a, c1, hg, ?_,
    ⟨n, by simp only [deref, QualType.getTypePtr, QualType.ofType, hn], hk, href⟩⟩
  obtain ⟨r, hr⟩ := findPointer_total c.heap e c.types hwf
  cases r with
  | some t =>
    simp only [getPointer, hr, Except.ok.injEq, Prod.mk.injEq] at hg
    obtain ⟨ha, hc⟩ := hg
    subst hc
    simp only [getPointer, hr, ha]
  | none =>
    obtain ⟨N, hN, hkN, hrefN⟩ := new_pointer_ok e he
    simp only [getPointer, hr, hN, Except.ok.injEq, Prod.mk.injEq] at hg
    obtain ⟨ha, hc⟩ := hg
    subst hc
    have h1 : findPointer (c.heap ++ [N]) e (c.types ++ [c.heap.length])
        = .ok (some c.heap.length) := by
      rw [findPointer_append_types _ _ _ _
        (by rw [findPointer_append_heap _ _ _ _ hwf]; exact hr)]
      simp [findPointer, TypeNode.isPointerType, TypeNode.getRefType, hkN, hrefN]
    simp only [getPointer, push, h1, ha]

/-- Witness of C1: a context owning two user nodes, asked twice for the pointer
to the first. -/
theorem getPointer_twice_same_node_witness :
    ∃ p c1, sampleContext.getPointer (QualType.ofType 0) = .ok (p, c1)
      ∧ c1.getPointer (QualType.ofType 0) = .ok (p, c1)
      ∧ ∃ n, deref c1.heap p = .ok n ∧ n.kind = .POINTER ∧ n.refType = QualType.ofType 0 :=
  getPointer_twice_same_node sampleContext (QualType.ofType 0) (by decide) (by decide)

/-- C2: on a well-formed context, for valid element handles `e1 ≠ e2`,
`getPointer(e1)` returns a node, and after any sequence `ops` of further factory
and setter calls that run through, `getPointer(e2)` returns a node at another
address; in the final store the first is still a pointer node with element `e1`
and the second a pointer node with element `e2`.  (The statement is symmetric in
`e1` and `e2`, so it covers both call orders.) -/
theorem getPointer_distinct_elements (c : TypeContext) (e1 e2 : QualType) (ops : List Op)
    (hwf : c.WF) (h1 : e1.isValid = true) (h2 : e2.isValid = true) (hne : e1 ≠ e2) :
    ∃ p1 c1, c.getPointer e1 = .ok (p1, c1) ∧
      ∀ c2, run c1 ops = .ok c2 →
        ∃ p2 c3, c2.getPointer e2 = .ok (p2, c3) ∧ p1.type ≠ p2.type ∧
          (∃ n1, deref c3.heap p1 = .ok n1 ∧ n1.kind = .POINTER ∧ n1.refType = e1) ∧
          (∃ n2, deref c3.heap p2 = .ok n2 ∧ n2.kind = .POINTER ∧ n2.refType = e2) := by
  obtain ⟨a1, c1, n1, hg1, hwf1, hn1, hk1, hr1, _⟩ := getPointer_spec c e1 hwf h1
  refine ⟨QualType.ofType a1, c1, hg1, ?_⟩
  intro c2 hrun
  obtain ⟨hwf2, hp2⟩ := run_frame ops c1 c2 hwf1 hrun
  obtain ⟨a2, c3, n2, hg2, _, hn2, hk2, hr2, hext⟩ := getPointer_spec c2 e2 hwf2 h2
  have hn1c3 : c3.heap[a1]? = some n1 := hext a1 n1 (hp2 a1 n1 hn1 hk1)
  refine ⟨QualType.ofType a2, c3, hg2, ?_, ⟨n1, ?_, hk1, hr1⟩, ⟨n2, ?_, hk2, hr2⟩⟩
  · intro heq
    simp only [QualType.ofType, Option.some.injEq] at heq
    subst heq
    rw [hn1c3] at hn2
    cases hn2
    exact hne (hr1.symm.trans hr2)
  · simp only [deref, QualType.getTypePtr, QualType.ofType, hn1c3]
  · simp only [deref, QualType.getTypePtr, QualType.ofType, hn2]

/-- Witness of C2: pointers to the two user nodes of the sample context, with a
`getUser` and a repeated `getPointer` in between; the calls in between run
through. -/
theorem getPointer_distinct_elements_witness :
    (∃ c2, run (sampleContext.push
        { sampleUser with kind := .POINTER, refType := QualType.ofType 0 })
        [Op.getUser, Op.getPointer (QualType.ofType 0)] = .ok c2) ∧
    ∃ p1 c1, sampleContext.getPointer (QualType.ofType 0) = .ok (p1, c1) ∧
      ∀ c2, run c1 [Op.getUser, Op.getPointer (QualType.ofType 0)] = .ok c2 →
        ∃ p2 c3, c2.getPointer (QualType.ofType 1) = .ok (p2, c3) ∧ p1.type ≠ p2.type ∧
          (∃ n1, deref c3.heap p1 = .ok n1 ∧ n1.kind = .POINTER ∧
            n1.refType = QualType.ofType 0) ∧
          (∃ n2, deref c3.heap p2 = .ok n2 ∧ n2.kind = .POINTER ∧
            n2.refType = QualType.ofType 1) :=
  ⟨⟨_, rfl⟩, getPointer_distinct_elements sampleContext (QualType.ofType 0) (QualType.ofType 1)
    [Op.getUser, Op.getPointer (QualType.ofType 0)]
    (by decide) (by decide) (by decide) (by decide)⟩

end TypeContext

/-! ### Function arguments -/

theorem linkLast_eq_append (l : List QualType) (a : QualType) :
    TypeNode.linkLast l a = l ++ [a] := by
  induction l with
  | nil => rfl
  | cons x xs ih => simp [TypeNode.linkLast, ih]

theorem getArgumentFrom_eq_getD (l : List QualType) :
    ∀ i, TypeNode.getArgumentFrom l i = l.getD i QualType.null := by
  induction l with
  | nil => intro i; simp [TypeNode.getArgumentFrom]
  | cons x xs ih =>
    intro i
    cases i with
    | zero => simp [TypeNode.getArgumentFrom]
    | succ j => simp [TypeNode.getArgumentFrom, ih j]

/-- Adding the handles `args` one after the other to the function node at `f`
runs through and extends its chain of arguments by `args`. -/
theorem run_addArguments (f : Addr) (args : List QualType) :
    ∀ (c : TypeContext) (n : TypeNode), c.heap[f]? = some n → n.kind = .FUNC →
      ∃ c2, run c (args.map (Op.addArgument f)) = .ok c2 ∧
        c2.heap[f]? = some { n with arguments := n.arguments ++ args } := by
  induction args with
  | nil => intro c n hn _; exact ⟨c, rfl, by simpa using hn⟩
  | cons a rest ih =>
    intro c n hn hk
    have hlt : f < c.heap.length := (List.getElem?_eq_some_iff.mp hn).1
    have hstep : step c (Op.addArgument f a) =
        .ok { c with heap := c.heap.set f { n with arguments := n.arguments ++ [a] } } := by
      simp [step, TypeContext.call, Heap.call, hn, TypeNode.addArgument, hk,
        linkLast_eq_append]
    obtain ⟨c2, hrun, hget⟩ := ih
      { c with heap := c.heap.set f { n with arguments := n.arguments ++ [a] } }
      { n with arguments := n.arguments ++ [a] }
      (by simp [List.getElem?_set_self hlt]) hk
    refine ⟨c2, ?_, ?_⟩
    · simp only [List.map_cons, run, hstep, hrun]
    · simpa using hget

/-- C3: `getFunction(rtype)` returns a node `f`; adding the handles `args` to it in
order runs through, and afterwards `getArgument(i)` on that node is `args[i]` for
every `i` below the number of arguments and the null handle for every other `i`. -/
theorem getArgument_after_addArguments (c : TypeContext) (rtype : QualType)
    (args : List QualType) :
    ∃ f c1 c2 n, c.getFunction rtype = .ok (f, c1) ∧
      run c1 (args.map (Op.addArgument f)) = .ok c2 ∧
      c2.heap[f]? = some n ∧ n.kind = .FUNC ∧
      (∀ i, ∀ hi : i < args.length, n.getArgument i = args[i]) ∧
      (∀ i, args.length ≤ i → n.getArgument i = QualType.null) := by
  have hnew : c.getFunction rtype = .ok (c.heap.length,
      c.push { sampleUser with kind := .FUNC, refType := rtype }) := by
    simp [TypeContext.getFunction, TypeNode.new, QualType.isNull, QualType.null,
      TypeNode.setReturnType, sampleUser]
  obtain ⟨c2, hrun, hget⟩ := run_addArguments c.heap.length args
    (c.push { sampleUser with kind := .FUNC, refType := rtype })
    { sampleUser with kind := .FUNC, refType := rtype }
    (by simp [TypeContext.push]) rfl
  refine ⟨_, _, c2, _, hnew, hrun, hget, rfl, ?_, ?_⟩
  · intro i hi
    simp [TypeNode.getArgument, getArgumentFrom_eq_getD, sampleUser, List.getD_eq_getElem?_getD,
      List.getElem?_eq_getElem hi]
  · intro i hi
    simp [TypeNode.getArgument, getArgumentFrom_eq_getD, sampleUser, List.getD_eq_getElem?_getD,
      List.getElem?_eq_none hi]

/-! ### Construction and set-once members -/

/-- C4: constructing a `Type` of kind `k` with handle `r` succeeds exactly when
the presence of `r` matches the kind (present for `Pointer` and `Array`, absent
for the six other kinds); when it succeeds the node has kind `k` and `refType`
`r`, and when it does not, it is an assertion that fails. -/
theorem new_succeeds_iff (k : Kind) (r : QualType) :
    ((∃ t, TypeNode.new k r = .ok t) ↔ (r.isValid = true ↔ (k = .POINTER ∨ k = .ARRAY))) ∧
    ((∃ t, TypeNode.new k r = .ok t ∧ t.kind = k ∧ t.refType = r) ∨
      (∃ msg, TypeNode.new k r = .error (.assertion msg))) := by
  obtain ⟨t, q⟩ := r
  cases k <;> cases t <;>
    simp [TypeNode.new, QualType.isNull, QualType.isValid]

/-- C5, as stated, fails: on a fresh struct node `setMembers` with the null
member list returns and leaves `members` null, so a second `setMembers` returns
too and stores its list. -/
theorem setMembers_after_null_succeeds :
    (TypeNode.new .STRUCT QualType.null >>= fun n =>
      n.setMembers none >>= fun n1 =>
      n1.setMembers (some [⟨"x", QualType.ofType 0⟩]) >>= fun n2 =>
      pure n2.members)
    = .ok (some [⟨"x", QualType.ofType 0⟩]) := rfl

/-- C5, amended: on a struct, union or enum node whose members are still unset,
`setMembers` with a non-null list `m1` returns and stores `m1`; any further
`setMembers(m2)` on the node then fails on the assertion `members == 0`, so the
node keeps `m1`. -/
theorem setMembers_twice_fails (n : TypeNode) (m1 : MemberList) (m2 : Option MemberList)
    (hk : n.kind = .STRUCT ∨ n.kind = .UNION ∨ n.kind = .ENUM) (hm : n.members = none) :
    ∃ n1, n.setMembers (some m1) = .ok n1 ∧ n1.members = some m1 ∧ n1.kind = n.kind ∧
      n1.setMembers m2 = .error (.assertion "members == 0") := by
  refine ⟨{ n with members := some m1 }, ?_, rfl, rfl, ?_⟩
  · simp [TypeNode.setMembers, hk, hm]
  · simp [TypeNode.setMembers, hk]

/-- Witness of C5 (amended): an enum node, given one member and then another list. -/
theorem setMembers_twice_fails_witness :
    ∃ n1, TypeNode.setMembers { sampleUser with kind := .ENUM }
        (some [⟨"A", QualType.ofType 0⟩]) = .ok n1 ∧
      n1.members = some [⟨"A", QualType.ofType 0⟩] ∧ n1.kind = .ENUM ∧
      n1.setMembers (some []) = .error (.assertion "members == 0") :=
  setMembers_twice_fails { sampleUser with kind := .ENUM } [⟨"A", QualType.ofType 0⟩]
    (some []) (by decide) (by decide)

/-! ### The builtin registry -/

/-- C6 at the failing inputs: the initialisation of the registry runs through;
in the resulting store the node returned by `get(TYPE_U32)` is named "u64" (its
name was set twice), and the node returned by `get(TYPE_U64)` has no display
name, no target-level name and width 0, so `printName` on it fails on the
assertion `name`. -/
theorem registry_u32_u64 :
    ∃ h u32 u64, BuiltinType.registry = .ok h ∧
      (BuiltinType.get .TYPE_U32).bind (fun a => h[a]?) = some u32 ∧
      (BuiltinType.get .TYPE_U64).bind (fun a => h[a]?) = some u64 ∧
      u32.name = some "u64" ∧ u32.cname = some "unsigned long long" ∧
      u64.name = none ∧ u64.cname = none ∧ u64.width = 0 ∧
      ∀ (exprPrint : Expr → Nat → String) (fuel : Nat) (buffer : String),
        printName exprPrint h (fuel + 1) u64 buffer = .error (.assertion "name") := by
  refine ⟨_, _, _, rfl, rfl, rfl, rfl, rfl, rfl, rfl, rfl, ?_⟩
  intro exprPrint fuel buffer
  rfl

/-- The other primitive kinds: for every kind other than `TYPE_U32` and
`TYPE_U64` the node returned by `get` carries the display name of the kind and a
target-level name, and `printName` appends that display name. -/
theorem registry_other_kinds (t : C2Type) (h32 : t ≠ .TYPE_U32) (h64 : t ≠ .TYPE_U64) :
    ∃ h n cname, BuiltinType.registry = .ok h ∧
      (BuiltinType.get t).bind (fun a => h[a]?) = some n ∧ n.kind = .BUILTIN ∧
      n.name = some (BuiltinType.displayName t) ∧ n.cname = some cname ∧
      ∀ (exprPrint : Expr → Nat → String) (fuel : Nat) (buffer : String),
        printName exprPrint h (fuel + 1) n buffer
          = .ok (buffer ++ BuiltinType.displayName t) := by
  cases t <;> first
    | exact absurd rfl h32
    | exact absurd rfl h64
    | exact ⟨_, _, _, rfl, rfl, rfl, rfl, rfl, fun _ _ _ => rfl⟩

/-! ### Structural compatibility -/

theorem Yields.unique {α : Type} {f : Nat → Except Err α} {r1 r2 : Except Err α}
    (h1 : Yields f r1) (h2 : Yields f r2) : r1 = r2 := by
  obtain ⟨n1, hn1⟩ := h1
  obtain ⟨n2, hn2⟩ := h2
  rw [← hn1 (max n1 n2) (le_max_left _ _), ← hn2 (max n1 n2) (le_max_right _ _)]

theorem Yields.of_succ {α : Type} {f g : Nat → Except Err α} {r : Except Err α}
    (hfg : ∀ n, f (n + 1) = g n) : Yields f r ↔ Yields g r := by
  constructor
  · rintro ⟨n0, hn0⟩
    exact ⟨n0, fun n hn => by rw [← hfg n]; exact hn0 (n + 1) (Nat.le_succ_of_le hn)⟩
  · rintro ⟨n0, hn0⟩
    refine ⟨n0 + 1, fun n hn => ?_⟩
    obtain ⟨m, rfl⟩ : ∃ m, n = m + 1 := ⟨n - 1, by omega⟩
    rw [hfg m]
    exact hn0 m (by omega)

theorem Yields.of_const {α : Type} {f : Nat → Except Err α} {r : Except Err α}
    (hf : ∀ n, f (n + 1) = r) : Yields f r :=
  ⟨1, fun n hn => by
    obtain ⟨m, rfl⟩ : ∃ m, n = m + 1 := ⟨n - 1, by omega⟩
    exact hf m⟩

theorem isCompatible_builtin (h : Heap) (t t2 : TypeNode) (hk : t.kind = .BUILTIN)
    (n : Nat) :
    isCompatible h (n + 1) t t2 =
      if t2.kind ≠ .BUILTIN then .ok false else .ok (t.name == t2.name) := by
  simp only [isCompatible, hk]

theorem isCompatible_pointer_other (h : Heap) (t t2 : TypeNode) (hk : t.kind = .POINTER)
    (hk2 : t2.kind ≠ .POINTER) (n : Nat) : isCompatible h (n + 1) t t2 = .ok false := by
  simp only [isCompatible, hk, hk2, ne_eq, not_false_eq_true, if_true]

theorem isCompatible_array_other (h : Heap) (t t2 : TypeNode) (hk : t.kind = .ARRAY)
    (hk2 : t2.kind ≠ .ARRAY) (n : Nat) : isCompatible h (n + 1) t t2 = .ok false := by
  simp only [isCompatible, hk, hk2, ne_eq, not_false_eq_true, if_true]

theorem isCompatible_elements (h : Heap) (t t2 r r2 : TypeNode)
    (hk : (t.kind = .POINTER ∧ t2.kind = .POINTER) ∨ (t.kind = .ARRAY ∧ t2.kind = .ARRAY))
    (hd : deref h t.refType = .ok r) (hd2 : deref h t2.refType = .ok r2) (n : Nat) :
    isCompatible h (n + 1) t t2 = isCompatible h n r r2 := by
  rcases hk with ⟨hk, hk2⟩ | ⟨hk, hk2⟩ <;>
    simp only [isCompatible, hk, hk2, hd, hd2, ne_eq, not_true_eq_false, if_false]

/-- On types built from `Builtin`, `Pointer` and `Array` nodes the check returns a
boolean. -/
theorem isCompatible_returns (h : Heap) (t : TypeNode) (ht : BuiltinPointerArray h t) :
    ∀ t2, BuiltinPointerArray h t2 →
      ∃ b, Yields (fun n => isCompatible h n t t2) (.ok b) := by
  induction ht with
  | builtin t hk =>
    intro t2 _
    by_cases hk2 : t2.kind = .BUILTIN
    · exact ⟨t.name == t2.name, Yields.of_const fun n => by
        simp [isCompatible_builtin h t t2 hk, hk2]⟩
    · exact ⟨false, Yields.of_const fun n => by
        simp [isCompatible_builtin h t t2 hk, hk2]⟩
  | pointer t r hk hd _ ih =>
    intro t2 ht2
    by_cases hk2 : t2.kind = .POINTER
    · cases ht2 with
      | builtin _ hb => rw [hk2] at hb; cases hb
      | array _ _ hb => rw [hk2] at hb; cases hb
      | pointer _ r2 _ hd2 hr2 =>
        obtain ⟨b, hb⟩ := ih r2 hr2
        exact ⟨b, (Yields.of_succ
          (isCompatible_elements h t t2 r r2 (Or.inl ⟨hk, hk2⟩) hd hd2)).mpr hb⟩
    · exact ⟨false, Yields.of_const (isCompatible_pointer_other h t t2 hk hk2)⟩
  | array t r hk hd _ ih =>
    intro t2 ht2
    by_cases hk2 : t2.kind = .ARRAY
    · cases ht2 with
      | builtin _ hb => rw [hk2] at hb; cases hb
      | pointer _ _ hb => rw [hk2] at hb; cases hb
      | array _ r2 _ hd2 hr2 =>
        obtain ⟨b, hb⟩ := ih r2 hr2
        exact ⟨b, (Yields.of_succ
          (isCompatible_elements h t t2 r r2 (Or.inr ⟨hk, hk2⟩) hd hd2)).mpr hb⟩
    · exact ⟨false, Yields.of_const (isCompatible_array_other h t t2 hk hk2)⟩

/-- The check reads of its two nodes only the kind, the name and the node that
`refType` refers to. -/
theorem isCompatible_congr (h : Heap) (t t2 s s2 : TypeNode)
    (hk : s.kind = t.kind) (hn : s.name = t.name) (hr : s.refType.type = t.refType.type)
    (hk2 : s2.kind = t2.kind) (hn2 : s2.name = t2.name)
    (hr2 : s2.refType.type = t2.refType.type) (n : Nat) :
    isCompatible h n s s2 = isCompatible h n t t2 := by
  have hd : deref h s.refType = deref h t.refType := by
    simp only [deref, QualType.getTypePtr, hr]
  have hd2 : deref h s2.refType = deref h t2.refType := by
    simp only [deref, QualType.getTypePtr, hr2]
  cases n with
  | zero => rfl
  | succ m => simp only [isCompatible, hk, hn, hk2, hn2, hd, hd2]

/-- C7: for two types built only from `Builtin`, `Pointer` and `Array` nodes,
`isCompatible` returns a boolean `b`.  For two `Builtin` nodes `b` says whether
the names are equal; for two `Pointer` nodes, and for two `Array` nodes, `b` is
what `isCompatible` returns on their element nodes; for nodes of different kinds
(a `Pointer` against an `Array` or a `Builtin`, in either position) `b` is
false; and `b` stays the same when the qualifier bits of the two `refType`
handles and the two size expressions are replaced by any others. -/
theorem isCompatible_builtin_pointer_array (h : Heap) (t1 t2 : TypeNode)
    (h1 : BuiltinPointerArray h t1) (h2 : BuiltinPointerArray h t2) :
    ∃ b, Yields (fun n => isCompatible h n t1 t2) (.ok b) ∧
      (t1.kind = .BUILTIN → t2.kind = .BUILTIN → (b = true ↔ t1.name = t2.name)) ∧
      (∀ r1 r2, (t1.kind = .POINTER ∧ t2.kind = .POINTER) ∨
          (t1.kind = .ARRAY ∧ t2.kind = .ARRAY) →
        deref h t1.refType = .ok r1 → deref h t2.refType = .ok r2 →
        Yields (fun n => isCompatible h n r1 r2) (.ok b)) ∧
      (t1.kind ≠ t2.kind → b = false) ∧
      (∀ (q1 q2 : Nat) (e1 e2 : Option Expr),
        Yields (fun n => isCompatible h n
          { t1 with refType := ⟨t1.refType.type, q1⟩, arrayExpr := e1 }
          { t2 with refType := ⟨t2.refType.type, q2⟩, arrayExpr := e2 }) (.ok b)) := by
  obtain ⟨b, hb⟩ := isCompatible_returns h t1 h1 t2 h2
  refine ⟨b, hb, ?_, ?_, ?_, ?_⟩
  · intro hk hk2
    have hy : Yields (fun n => isCompatible h n t1 t2) (.ok (t1.name == t2.name)) :=
      Yields.of_const fun n => by simp [isCompatible_builtin h t1 t2 hk, hk2]
    have hbe : b = (t1.name == t2.name) := by
      have := Yields.unique hb hy
      simpa using this
    rw [hbe]
    exact beq_iff_eq
  · intro r1 r2 hk hd hd2
    exact (Yields.of_succ (isCompatible_elements h t1 t2 r1 r2 hk hd hd2)).mp hb
  · intro hne
    have hy : Yields (fun n => isCompatible h n t1 t2) (.ok false) := by
      cases h1 with
      | builtin _ hk =>
        exact Yields.of_const fun n => by
          have hk2 : t2.kind ≠ .BUILTIN := fun hc => hne (hk.trans hc.symm)
          simp [isCompatible_builtin h t1 t2 hk, hk2]
      | pointer _ _ hk =>
        exact Yields.of_const (isCompatible_pointer_other h t1 t2 hk
          (fun hc => hne (hk.trans hc.symm)))
      | array _ _ hk =>
        exact Yields.of_const (isCompatible_array_other h t1 t2 hk
          (fun hc => hne (hk.trans hc.symm)))
    have := Yields.unique hb hy
    simpa using this
  · intro q1 q2 e1 e2
    obtain ⟨n0, hn0⟩ := hb
    exact ⟨n0, fun n hn =>
      (isCompatible_congr h t1 t2
        { t1 with refType := ⟨t1.refType.type, q1⟩, arrayExpr := e1 }
        { t2 with refType := ⟨t2.refType.type, q2⟩, arrayExpr := e2 }
        rfl rfl rfl rfl rfl rfl n).trans (hn0 n hn)⟩

/-- Witness of C7: in the sample store, the pointer to "int" against the
const-qualified pointer to that pointer. -/
theorem isCompatible_builtin_pointer_array_witness :
    ∃ b, Yields (fun n => isCompatible sampleHeap n
        { sampleUser with kind := .POINTER, refType := QualType.ofType 0 }
        { sampleUser with kind := .POINTER, refType := ⟨some 3, 1⟩ }) (.ok b) ∧
      ((Kind.POINTER = Kind.BUILTIN) → (Kind.POINTER = Kind.BUILTIN) →
        (b = true ↔ (none : Option String) = none)) ∧
      (∀ r1 r2, (Kind.POINTER = Kind.POINTER ∧ Kind.POINTER = Kind.POINTER) ∨
          (Kind.POINTER = Kind.ARRAY ∧ Kind.POINTER = Kind.ARRAY) →
        deref sampleHeap (QualType.ofType 0) = .ok r1 →
        deref sampleHeap ⟨some 3, 1⟩ = .ok r2 →
        Yields (fun n => isCompatible sampleHeap n r1 r2) (.ok b)) ∧
      (Kind.POINTER ≠ Kind.POINTER → b = false) ∧
      (∀ (q1 q2 : Nat) (e1 e2 : Option Expr),
        Yields (fun n => isCompatible sampleHeap n
          { sampleUser with kind := .POINTER, refType := ⟨some 0, q1⟩, arrayExpr := e1 }
          { sampleUser with kind := .POINTER, refType := ⟨some 3, q2⟩, arrayExpr := e2 })
          (.ok b)) :=
  isCompatible_builtin_pointer_array sampleHeap
    { sampleUser with kind := .POINTER, refType := QualType.ofType 0 }
    { sampleUser with kind := .POINTER, refType := ⟨some 3, 1⟩ }
    (.pointer _ sampleInt rfl rfl (.builtin _ rfl))
    (.pointer _ { sampleUser with kind := .POINTER, refType := QualType.ofType 0 } rfl rfl
      (.pointer _ sampleInt rfl rfl (.builtin _ rfl)))

/-- C8, as stated, fails: with the builtin "int" as receiver and a `User` node as
argument the check returns false; so it does with the pointer to "int" as
receiver and a pointer to the `User` node as argument. -/
theorem isCompatible_user_argument_returns :
    Yields (fun n => isCompatible sampleHeap n sampleInt sampleUser) (.ok false) ∧
    Yields (fun n => isCompatible sampleHeap n
      { sampleUser with kind := .POINTER, refType := QualType.ofType 0 }
      { sampleUser with kind := .POINTER, refType := QualType.ofType 1 }) (.ok false) :=
  ⟨⟨1, fun n hn => by
      obtain ⟨m, rfl⟩ : ∃ m, n = m + 1 := ⟨n - 1, by omega⟩
      rfl⟩,
   ⟨2, fun n hn => by
      obtain ⟨m, rfl⟩ : ∃ m, n = m + 2 := ⟨n - 2, by omega⟩
      rfl⟩⟩

theorem isCompatible_user (h : Heap) (t t2 : TypeNode) (hk : t.kind = .USER) (n : Nat) :
    isCompatible h (n + 1) t t2 = .error (.assertion "TODO") := by
  simp only [isCompatible, hk]

/-- C8, amended: whenever a `User` node is the receiver of the check, directly or
as the receiver-side element reached through `Pointer`/`Array` nodes on both
sides, the check fails on the assertion marked "TODO", and at no depth bound does
it return a boolean. -/
theorem isCompatible_user_receiver_fails (h : Heap) (t t2 : TypeNode)
    (hr : ReceiverReachesUser h t t2) :
    Yields (fun n => isCompatible h n t t2) (.error (.assertion "TODO")) ∧
      ∀ n b, isCompatible h n t t2 ≠ .ok b := by
  induction hr with
  | user t t2 hk =>
    refine ⟨Yields.of_const (isCompatible_user h t t2 hk), ?_⟩
    intro n b
    cases n with
    | zero => simp [isCompatible]
    | succ m => simp [isCompatible_user h t t2 hk]
  | pointer t t2 r r2 hk hk2 hd hd2 _ ih =>
    have hs := isCompatible_elements h t t2 r r2 (Or.inl ⟨hk, hk2⟩) hd hd2
    refine ⟨(Yields.of_succ hs).mpr ih.1, ?_⟩
    intro n b
    cases n with
    | zero => simp [isCompatible]
    | succ m => rw [hs m]; exact ih.2 m b
  | array t t2 r r2 hk hk2 hd hd2 _ ih =>
    have hs := isCompatible_elements h t t2 r r2 (Or.inr ⟨hk, hk2⟩) hd hd2
    refine ⟨(Yields.of_succ hs).mpr ih.1, ?_⟩
    intro n b
    cases n with
    | zero => simp [isCompatible]
    | succ m => rw [hs m]; exact ih.2 m b

/-- Witness of C8 (amended): a pointer to the `User` node as receiver against the
pointer to "int". -/
theorem isCompatible_user_receiver_fails_witness :
    Yields (fun n => isCompatible sampleHeap n
        { sampleUser with kind := .POINTER, refType := QualType.ofType 1 }
        { sampleUser with kind := .POINTER, refType := QualType.ofType 0 })
        (.error (.assertion "TODO")) ∧
      ∀ n b, isCompatible sampleHeap n
        { sampleUser with kind := .POINTER, refType := QualType.ofType 1 }
        { sampleUser with kind := .POINTER, refType := QualType.ofType 0 } ≠ .ok b :=
  isCompatible_user_receiver_fails sampleHeap _ _
    (.pointer _ _ sampleUser sampleInt rfl rfl rfl rfl (.user _ _ rfl))

/-! ### Width -/

theorem getWidth_delegates (h : Heap) (t r : TypeNode)
    (hk : t.kind = .ARRAY ∨ t.kind = .USER) (hd : deref h t.refType = .ok r) (n : Nat) :
    getWidth h (n + 1) t = getWidth h n r := by
  rcases hk with hk | hk <;> simp only [getWidth, hk, hd]

/-- C9: `getWidth` returns the stored width on a `Builtin` node and 4 on an
`Enum`, a `Func` and a `Pointer` node.  On an `Array` node, and on a `User` node
whose `refType` is resolved, the call has exactly the outcome of `getWidth` on
the node that `refType` refers to; the size expression plays no part; and an
array of arrays of a builtin returns the width of that builtin. -/
theorem getWidth_by_kind (h : Heap) (t : TypeNode) :
    (t.kind = .BUILTIN → Yields (fun n => getWidth h n t) (.ok t.width)) ∧
    (t.kind = .ENUM ∨ t.kind = .FUNC ∨ t.kind = .POINTER →
      Yields (fun n => getWidth h n t) (.ok 4)) ∧
    (∀ r, t.kind = .ARRAY ∨ t.kind = .USER → deref h t.refType = .ok r →
      ∀ res, Yields (fun n => getWidth h n t) res ↔ Yields (fun n => getWidth h n r) res) ∧
    (∀ (e : Option Expr) (own : Bool) (n : Nat),
      getWidth h n (t.setArrayExpr e own) = getWidth h n t) ∧
    (∀ r b, t.kind = .ARRAY → deref h t.refType = .ok r →
      r.kind = .ARRAY → deref h r.refType = .ok b → b.kind = .BUILTIN →
      Yields (fun n => getWidth h n t) (.ok b.width)) := by
  have hbuiltin : ∀ b : TypeNode, b.kind = .BUILTIN →
      Yields (fun n => getWidth h n b) (.ok b.width) :=
    fun b hk => Yields.of_const fun n => by simp only [getWidth, hk]
  refine ⟨hbuiltin t, ?_, ?_, ?_, ?_⟩
  · intro hk
    exact Yields.of_const fun n => by
      rcases hk with hk | hk | hk <;> simp only [getWidth, hk]
  · intro r hk hd res
    exact Yields.of_succ (getWidth_delegates h t r hk hd)
  · intro e own n
    cases n with
    | zero => rfl
    | succ m => simp only [getWidth, TypeNode.setArrayExpr]
  · intro r b hk hd hkr hdr hkb
    exact (Yields.of_succ (getWidth_delegates h t r (Or.inl hk) hd)).mpr
      ((Yields.of_succ (getWidth_delegates h r b (Or.inl hkr) hdr)).mpr (hbuiltin b hkb))

/-- C10: on a `Struct` or `Union` node, whatever its members, and on an `Array` or
a resolved `User` node whose width is that of such a node, `getWidth` fails on the
assertion marked "TODO"; at no depth bound does it return a number. -/
theorem getWidth_aggregate_fails (h : Heap) (t : TypeNode) (ha : WidthOfAggregate h t) :
    Yields (fun n => getWidth h n t) (.error (.assertion "TODO")) ∧
      ∀ n w, getWidth h n t ≠ .ok w := by
  induction ha with
  | struct t hk =>
    refine ⟨Yields.of_const fun n => by simp only [getWidth, hk], ?_⟩
    intro n w
    cases n <;> simp [getWidth, hk]
  | union t hk =>
    refine ⟨Yields.of_const fun n => by simp only [getWidth, hk], ?_⟩
    intro n w
    cases n <;> simp [getWidth, hk]
  | array t r hk hd _ ih =>
    have hs := getWidth_delegates h t r (Or.inl hk) hd
    refine ⟨(Yields.of_succ hs).mpr ih.1, ?_⟩
    intro n w
    cases n with
    | zero => simp [getWidth]
    | succ m => rw [hs m]; exact ih.2 m w
  | user t r hk hd _ ih =>
    have hs := getWidth_delegates h t r (Or.inr hk) hd
    refine ⟨(Yields.of_succ hs).mpr ih.1, ?_⟩
    intro n w
    cases n with
    | zero => simp [getWidth]
    | succ m => rw [hs m]; exact ih.2 m w

/-- Witness of C10: in the sample store, the user node resolved to the array of
the struct. -/
theorem getWidth_aggregate_fails_witness :
    Yields (fun n => getWidth sampleHeap n { sampleUser with refType := QualType.ofType 5 })
        (.error (.assertion "TODO")) ∧
      ∀ n w, getWidth sampleHeap n { sampleUser with refType := QualType.ofType 5 } ≠ .ok w :=
  getWidth_aggregate_fails sampleHeap _
    (.user _ { sampleUser with kind := .ARRAY, refType := QualType.ofType 2 } rfl rfl
      (.array _ { sampleUser with kind := .STRUCT } rfl rfl (.struct _ rfl)))

/-! ### Name form -/

theorem printName_builtin (exprPrint : Expr → Nat → String) (h : Heap) (t : TypeNode)
    (name : String) (hk : t.kind = .BUILTIN) (hn : t.name = some name) (buffer : String)
    (n : Nat) : printName exprPrint h (n + 1) t buffer = .ok (buffer ++ name) := by
  simp only [printName, hk, hn]

theorem printName_pointer (exprPrint : Expr → Nat → String) (h : Heap) (t r : TypeNode)
    (hk : t.kind = .POINTER) (hd : deref h t.refType = .ok r) (buffer : String) (n : Nat) :
    printName exprPrint h (n + 1) t buffer =
      match printName exprPrint h n r buffer with
      | .error e => .error e
      | .ok b => .ok (b ++ "*") := by
  simp only [printName, hk, hd]

theorem printName_array (exprPrint : Expr → Nat → String) (h : Heap) (t r : TypeNode)
    (hk : t.kind = .ARRAY) (hd : deref h t.refType = .ok r) (buffer : String) (n : Nat) :
    printName exprPrint h (n + 1) t buffer =
      match printName exprPrint h n r buffer with
      | .error e => .error e
      | .ok b => .ok (printArray exprPrint b t.arrayExpr) := by
  simp only [printName, hk, hd]

/-- When the element prints and leaves the buffer `out`, the pointer leaves
`out ++ "*"` and the array without size `out ++ "[]"`. -/
theorem printName_suffix (exprPrint : Expr → Nat → String) (h : Heap) (t r : TypeNode)
    (buffer out : String) (hd : deref h t.refType = .ok r)
    (hr : Yields (fun n => printName exprPrint h n r buffer) (.ok out)) :
    (t.kind = .POINTER → Yields (fun n => printName exprPrint h n t buffer) (.ok (out ++ "*"))) ∧
    (t.kind = .ARRAY → t.arrayExpr = none →
      Yields (fun n => printName exprPrint h n t buffer) (.ok (out ++ "[]"))) := by
  obtain ⟨n0, hn0⟩ := hr
  constructor
  · intro hk
    refine ⟨n0 + 1, fun n hn => ?_⟩
    obtain ⟨m, rfl⟩ : ∃ m, n = m + 1 := ⟨n - 1, by omega⟩
    have hm := hn0 m (by omega)
    simp only at hm
    simp only [printName_pointer exprPrint h t r hk hd, hm]
  · intro hk he
    refine ⟨n0 + 1, fun n hn => ?_⟩
    obtain ⟨m, rfl⟩ : ∃ m, n = m + 1 := ⟨n - 1, by omega⟩
    have hm := hn0 m (by omega)
    simp only at hm
    simp only [printName_array exprPrint h t r hk hd, hm, he, printArray]

/-- C11: let the node `t` refer to the element `r`.  Whenever `printName` on `r`
returns, leaving the buffer `out`, `printName` on `t` returns `out` followed by
"*" if `t` is a `Pointer`, and `out` followed by "[]" if `t` is an `Array` with no
size expression.  In particular a `Pointer` to a `Builtin` named "int" appends
exactly "int*", and an `Array` without size of that pointer appends exactly
"int*[]". -/
theorem printName_pointer_array (exprPrint : Expr → Nat → String) (h : Heap)
    (t r : TypeNode) (buffer : String) (hd : deref h t.refType = .ok r) :
    (∀ out, Yields (fun n => printName exprPrint h n r buffer) (.ok out) →
      (t.kind = .POINTER →
        Yields (fun n => printName exprPrint h n t buffer) (.ok (out ++ "*"))) ∧
      (t.kind = .ARRAY → t.arrayExpr = none →
        Yields (fun n => printName exprPrint h n t buffer) (.ok (out ++ "[]")))) ∧
    (r.kind = .BUILTIN → r.name = some "int" → t.kind = .POINTER →
      Yields (fun n => printName exprPrint h n t buffer) (.ok (buffer ++ "int*")) ∧
      ∀ a : TypeNode, a.kind = .ARRAY → a.arrayExpr = none → deref h a.refType = .ok t →
        Yields (fun n => printName exprPrint h n a buffer) (.ok (buffer ++ "int*[]"))) := by
  refine ⟨fun out hr => printName_suffix exprPrint h t r buffer out hd hr, ?_⟩
  intro hk hn hkt
  have hint : Yields (fun n => printName exprPrint h n r buffer) (.ok (buffer ++ "int")) :=
    Yields.of_const (printName_builtin exprPrint h r "int" hk hn buffer)
  have hptr : Yields (fun n => printName exprPrint h n t buffer) (.ok (buffer ++ "int*")) := by
    have := (printName_suffix exprPrint h t r buffer _ hd hint).1 hkt
    rwa [String.append_assoc] at this
  refine ⟨hptr, ?_⟩
  intro a hka hea hda
  have := (printName_suffix exprPrint h a t buffer _ hda hptr).2 hka hea
  rwa [String.append_assoc] at this

/-- Witness of C11: in the sample store, the pointer to "int" and the array of it. -/
theorem printName_pointer_array_witness :
    Yields (fun n => printName sampleEnv.exprPrint sampleGraph n
      { sampleUser with kind := .POINTER, refType := QualType.ofType 2 } "") (.ok "int*") ∧
    Yields (fun n => printName sampleEnv.exprPrint sampleGraph n
      { sampleUser with kind := .ARRAY, refType := QualType.ofType 7 } "") (.ok "int*[]") :=
  have key := (printName_pointer_array sampleEnv.exprPrint sampleGraph
    { sampleUser with kind := .POINTER, refType := QualType.ofType 2 } sampleInt "" rfl).2
    rfl rfl rfl
  ⟨key.1, key.2 { sampleUser with kind := .ARRAY, refType := QualType.ofType 7 } rfl rfl rfl⟩

/-! ### Null handles and the recursion flag -/

/-- C12, as stated, fails: `QualType::printName` on the null handle stops at the
assertion of `getTypePtr`. -/
theorem QualType_printName_null_fails :
    QualType.printName sampleEnv.exprPrint sampleGraph 3 QualType.null ""
      = .error (.assertion "Cannot retrieve a NULL type pointer") := rfl

/-- C12, amended: on a null handle, whatever its qualifier bits, `QualType::print`
appends the indentation and the text "NULL" and returns, for either value of the
recursion flag, and `dump` writes "[QUALTYPE] NULL" and a line break; whereas
`QualType::printName` fails on the assertion of `getTypePtr`. -/
theorem QualType_print_null (env : PrintEnv) (h : Heap) (fuel quals indent : Nat)
    (buffer : String) (recursive : RecursionType) :
    QualType.print env h fuel ⟨none, quals⟩ indent buffer recursive
      = .ok (StringBuilder.indent buffer indent ++ "NULL") ∧
    QualType.dump env h fuel ⟨none, quals⟩ = .ok "[QUALTYPE] NULL\n" ∧
    QualType.printName env.exprPrint h fuel ⟨none, quals⟩ buffer
      = .error (.assertion "Cannot retrieve a NULL type pointer") :=
  ⟨rfl, rfl, rfl⟩

/-- C13 at the failing inputs: `QualType::print` gives the same result for both
values of the recursion flag; called with `RECURSE_NONE` on a handle to the alias
of "int" it prints the "resolved to:" line, and so does `Type::print` called with
`RECURSE_NONE` on the pointer to the alias, whereas `Type::print` called with
`RECURSE_NONE` on the alias itself does not. -/
theorem print_RECURSE_NONE_resolved :
    (∀ (env : PrintEnv) (h : Heap) (fuel : Nat) (q : QualType) (indent : Nat)
        (buffer : String),
      QualType.print env h fuel q indent buffer .RECURSE_NONE
        = QualType.print env h fuel q indent buffer .RECURSE_ALL) ∧
    QualType.print sampleEnv sampleGraph 2 (QualType.ofType 5) 0 "" .RECURSE_NONE
      = .ok "[type] (user)\n<e7>\n  <C>resolved to:<N> int\n" ∧
    print sampleEnv sampleGraph 3
        { sampleUser with kind := .POINTER, refType := QualType.ofType 5 } 0 "" .RECURSE_NONE
      = .ok "[type] (pointer)\n  [type] (user)\n<e7>\n    <C>resolved to:<N> int\n" ∧
    print sampleEnv sampleGraph 3 sampleAlias 0 "" .RECURSE_NONE
      = .ok "[type] (user)\n<e7>\n" :=
  ⟨fun _ _ _ _ _ _ => rfl, rfl, rfl, rfl⟩

/-! ### Cyclic type graphs -/

theorem deref_eq_ok (h : Heap) (q : QualType) (t : TypeNode) (hd : deref h q = .ok t) :
    ∃ a, q.type = some a ∧ h[a]? = some t := by
  obtain ⟨ty, quals⟩ := q
  cases ty with
  | none => simp [deref, QualType.getTypePtr] at hd
  | some a =>
    refine ⟨a, rfl, ?_⟩
    simp only [deref, QualType.getTypePtr] at hd
    cases hg : h[a]? with
    | none => simp [hg] at hd
    | some t1 =>
      simp only [hg, Except.ok.injEq] at hd
      rw [hd]

/-- On a struct whose first member is a pointer back to the struct, `printFull`
reaches every bound on the call depth, from the struct and from the pointer. -/
theorem printFull_cycle (exprPrint : Expr → Nat → String) (h : Heap) (s p : TypeNode)
    (m : DeclExpr) (ms : List DeclExpr)
    (hs : s.kind = .STRUCT) (hm : s.members = some (m :: ms))
    (hmd : deref h m.type = .ok p) (hp : p.kind = .POINTER)
    (hpd : deref h p.refType = .ok s) :
    ∀ n, (∀ buffer indent, printFull exprPrint h n s buffer indent = .error .outOfFuel) ∧
      (∀ buffer indent, printFull exprPrint h n p buffer indent = .error .outOfFuel) := by
  intro n
  induction n with
  | zero => exact ⟨fun _ _ => rfl, fun _ _ => rfl⟩
  | succ k ih =>
    constructor
    · intro buffer indent
      simp only [printFull, hs, hm, Option.getD_some, forMembers, hmd, ih.2]
    · intro buffer indent
      simp only [printFull, hp, hpd, ih.1]

/-- On such a struct `Type::print` reaches every bound on the call depth as well,
for either value of the recursion flag. -/
theorem print_cycle (env : PrintEnv) (h : Heap) (s p : TypeNode)
    (m : DeclExpr) (ms : List DeclExpr)
    (hs : s.kind = .STRUCT) (hm : s.members = some (m :: ms))
    (hmd : deref h m.type = .ok p) (hp : p.kind = .POINTER)
    (hpd : deref h p.refType = .ok s) :
    ∀ n, (∀ indent buffer recursive, print env h n s indent buffer recursive
        = .error .outOfFuel) ∧
      (∀ indent buffer recursive, print env h n p indent buffer recursive
        = .error .outOfFuel) := by
  obtain ⟨a, hpa, hha⟩ := deref_eq_ok h p.refType s hpd
  intro n
  induction n with
  | zero => exact ⟨fun _ _ _ => rfl, fun _ _ _ => rfl⟩
  | succ k ih =>
    constructor
    · intro indent buffer recursive
      simp only [print, hs, hm, Option.getD_some, forMembers, hmd, ih.2]
    · intro indent buffer recursive
      simp only [print, hp, QualType.printWith, hpa, hha, ih.1]

/-- C14, as stated, fails: on the struct `Node`, whose member `next` is a pointer
to the struct itself, `printFull` never finishes, neither from the struct nor from
the pointer. -/
theorem printFull_cyclic_struct_diverges :
    Diverges (fun n => printFull sampleEnv.exprPrint sampleGraph n sampleNode "" 0) ∧
    Diverges (fun n => printFull sampleEnv.exprPrint sampleGraph n
      { sampleUser with kind := .POINTER, refType := QualType.ofType 0 } "" 0) :=
  have key := printFull_cycle sampleEnv.exprPrint sampleGraph sampleNode
    { sampleUser with kind := .POINTER, refType := QualType.ofType 0 }
    ⟨"next", QualType.ofType 1⟩ [] rfl rfl rfl rfl rfl
  ⟨fun n => (key n).1 "" 0, fun n => (key n).2 "" 0⟩

/-- The diagnostic dump of the struct `Node` called with `RECURSE_NONE` never
finishes either: the `Struct` case expands its members whatever the flag. -/
theorem print_cyclic_struct_diverges :
    Diverges (fun n => print sampleEnv sampleGraph n sampleNode 0 "" .RECURSE_NONE) :=
  have key := print_cycle sampleEnv sampleGraph sampleNode
    { sampleUser with kind := .POINTER, refType := QualType.ofType 0 }
    ⟨"next", QualType.ofType 1⟩ [] rfl rfl rfl rfl rfl
  fun n => (key n).1 0 "" .RECURSE_NONE

/-- C14, amended: for a struct node with tag name `tag`, whatever its members (so
also when a member is a pointer to the struct itself), `printName` of the struct
returns after appending "(struct)" and the tag, and `printName` of a pointer to
the struct returns after appending that text and "*". -/
theorem printName_struct_and_pointer (exprPrint : Expr → Nat → String) (h : Heap)
    (s p : TypeNode) (tag buffer : String)
    (hs : s.kind = .STRUCT) (hn : s.sname = some tag)
    (hp : p.kind = .POINTER) (hpd : deref h p.refType = .ok s) :
    Yields (fun n => printName exprPrint h n s buffer) (.ok (buffer ++ "(struct)" ++ tag)) ∧
    Yields (fun n => printName exprPrint h n p buffer)
      (.ok (buffer ++ "(struct)" ++ tag ++ "*")) := by
  have h1 : Yields (fun n => printName exprPrint h n s buffer)
      (.ok (buffer ++ "(struct)" ++ tag)) :=
    Yields.of_const fun n => by simp only [printName, hs, hn, appendCStr]
  exact ⟨h1, (printName_suffix exprPrint h p s buffer _ hpd h1).1 hp⟩

/-- Witness of C14 (amended): the struct `Node` of the sample store and the
pointer to it, which is the type of its member `next`. -/
theorem printName_struct_and_pointer_witness :
    Yields (fun n => printName sampleEnv.exprPrint sampleGraph n sampleNode "")
      (.ok ("" ++ "(struct)" ++ "Node")) ∧
    Yields (fun n => printName sampleEnv.exprPrint sampleGraph n
      { sampleUser with kind := .POINTER, refType := QualType.ofType 0 } "")
      (.ok ("" ++ "(struct)" ++ "Node" ++ "*")) :=
  printName_struct_and_pointer sampleEnv.exprPrint sampleGraph sampleNode
    { sampleUser with kind := .POINTER, refType := QualType.ofType 0 } "Node" ""
    rfl rfl rfl rfl

/-! ### Qualified handles -/

/-- C15: for a handle `q` to the node `t`, `getCanonicalType` returns the handle
that references what `t.CanonicalType` references and carries the qualifier bits
of `q`, whatever bits `t.CanonicalType` carries; so for any other handle `q2` to
the same node the canonical handles reference the same node and each carries the
bits of its own handle. -/
theorem getCanonicalType_keeps_qualifiers (h : Heap) (q : QualType) (a : Addr)
    (t : TypeNode) (hq : q.type = some a) (ht : h[a]? = some t) :
    ∃ canon, q.getCanonicalType h = .ok canon ∧
      canon.type = t.CanonicalType.type ∧ canon.qualifiers = q.qualifiers ∧
      ∀ q2 : QualType, q2.type = some a →
        ∃ canon2, q2.getCanonicalType h = .ok canon2 ∧
          canon2.type = canon.type ∧ canon2.qualifiers = q2.qualifiers := by
  refine ⟨t.CanonicalType.setQualifiers q.qualifiers, ?_, rfl, rfl, ?_⟩
  · simp only [QualType.getCanonicalType, hq, ht]
  · intro q2 hq2
    exact ⟨t.CanonicalType.setQualifiers q2.qualifiers,
      by simp only [QualType.getCanonicalType, hq2, ht], rfl, rfl⟩

/-- Witness of C15: a node whose stored canonical handle is the volatile-qualified
"int", reached through a const-qualified handle. -/
theorem getCanonicalType_keeps_qualifiers_witness :
    ∃ canon, QualType.getCanonicalType
        [sampleInt, { sampleUser with CanonicalType := ⟨some 0, 2⟩ }] ⟨some 1, 1⟩ = .ok canon ∧
      canon.type = some 0 ∧ canon.qualifiers = 1 ∧
      ∀ q2 : QualType, q2.type = some 1 →
        ∃ canon2, q2.getCanonicalType
            [sampleInt, { sampleUser with CanonicalType := ⟨some 0, 2⟩ }] = .ok canon2 ∧
          canon2.type = canon.type ∧ canon2.qualifiers = q2.qualifiers :=
  getCanonicalType_keeps_qualifiers
    [sampleInt, { sampleUser with CanonicalType := ⟨some 0, 2⟩ }] ⟨some 1, 1⟩ 1
    { sampleUser with CanonicalType := ⟨some 0, 2⟩ } rfl rfl

theorem printQualifiers_eq (env : PrintEnv) (buffer : String) (flags : Nat) :
    printQualifiers env buffer flags = buffer ++ qualifierNames env flags := by
  simp only [printQualifiers, qualifierNames]
  split <;> split <;> simp [String.append_assoc]

/-- C16: let `q` be a handle to the node `t`, and let the dump of `t` (with
`RECURSE_ALL`) return, leaving the buffer `b`.  With no qualifier bit set
`QualType::print` returns `b`.  With some bit set it returns `b` followed by one
more line: the indentation, "qualifiers=", the names of the set qualifiers
("volatile " before "const ") and a line break; with the `const` bit and not the
`volatile` bit that line is the indentation and "qualifiers=const ". -/
theorem QualType_print_qualifier_line (env : PrintEnv) (h : Heap) (fuel : Nat)
    (q : QualType) (a : Addr) (t : TypeNode) (indent : Nat) (buffer b : String)
    (recursive : RecursionType) (hq : q.type = some a) (ht : h[a]? = some t)
    (hb : print env h fuel t indent buffer .RECURSE_ALL = .ok b) :
    (q.qualifiers = 0 → QualType.print env h fuel q indent buffer recursive = .ok b) ∧
    (q.qualifiers ≠ 0 → QualType.print env h fuel q indent buffer recursive
      = .ok (StringBuilder.indent b indent ++ "qualifiers="
          ++ qualifierNames env q.qualifiers ++ "\n")) ∧
    (q.qualifiers &&& env.QUAL_CONST ≠ 0 → q.qualifiers &&& env.QUAL_VOLATILE = 0 →
      QualType.print env h fuel q indent buffer recursive
        = .ok (StringBuilder.indent b indent ++ "qualifiers=const \n")) := by
  have hne : q.qualifiers ≠ 0 → QualType.print env h fuel q indent buffer recursive
      = .ok (StringBuilder.indent b indent ++ "qualifiers="
          ++ qualifierNames env q.qualifiers ++ "\n") := by
    intro hz
    simp only [QualType.print, QualType.printWith, hq, ht, hb, hz, ne_eq, not_false_eq_true,
      if_true, printQualifiers_eq]
  refine ⟨?_, hne, ?_⟩
  · intro hz
    simp only [QualType.print, QualType.printWith, hq, ht, hb, hz, ne_eq, not_true_eq_false,
      if_false]
  · intro hc hv
    have hz : q.qualifiers ≠ 0 := by
      intro hz
      rw [hz, Nat.zero_and] at hc
      exact hc rfl
    rw [hne hz]
    have hnames : qualifierNames env q.qualifiers = "const " := by
      simp [qualifierNames, hc, hv]
    rw [hnames, String.append_assoc, String.append_assoc]
    rfl

/-- Witness of C16: the const-qualified handle to "int" in the sample store; its
dump is the dump of "int" and the line "qualifiers=const ". -/
theorem QualType_print_qualifier_line_witness :
    QualType.print sampleEnv sampleGraph 1 ⟨some 2, 1⟩ 0 "" .RECURSE_ALL
      = .ok (StringBuilder.indent "[type] (builtin) int\n" 0 ++ "qualifiers=const \n") :=
  (QualType_print_qualifier_line sampleEnv sampleGraph 1 ⟨some 2, 1⟩ 2 sampleInt 0 ""
    "[type] (builtin) int\n" .RECURSE_ALL rfl rfl rfl).2.2 (by decide) (by decide)

/-! ### Full form -/

theorem forMembers_lines (body : String → DeclExpr → Except Err String)
    (line : DeclExpr → String) :
    ∀ (ms : List DeclExpr) (b : String),
      (∀ m ∈ ms, ∀ b1, body b1 m = .ok (b1 ++ line m)) →
      forMembers body ms b = .ok (b ++ concatLines (ms.map line)) := by
  intro ms
  induction ms with
  | nil => intro b _; simp [forMembers, concatLines]
  | cons m rest ih =>
    intro b hbody
    have hm := hbody m (List.mem_cons_self _ _) b
    have hrest := ih (b ++ line m) (fun m1 hm1 => hbody m1 (List.mem_cons_of_mem _ hm1))
    simp only [forMembers, hm, hrest, List.map_cons, concatLines, String.append_assoc]

theorem printFull_pointer (exprPrint : Expr → Nat → String) (h : Heap) (t r : TypeNode)
    (hk : t.kind = .POINTER) (hd : deref h t.refType = .ok r) (buffer : String)
    (indent n : Nat) :
    printFull exprPrint h (n + 1) t buffer indent =
      match printFull exprPrint h n r buffer indent with
      | .error e => .error e
      | .ok b => .ok (b ++ "*") := by
  simp only [printFull, hk, hd]

theorem printFull_builtin (exprPrint : Expr → Nat → String) (h : Heap) (t : TypeNode)
    (hk : t.kind = .BUILTIN) (buffer : String) (indent n : Nat) :
    printFull exprPrint h (n + 1) t buffer indent = appendCStr buffer t.name := by
  rw [printFull]
  simp only [hk]

theorem printFull_struct (exprPrint : Expr → Nat → String) (h : Heap) (s : TypeNode)
    (hs : s.kind = .STRUCT) (buffer : String) (indent n : Nat) :
    printFull exprPrint h (n + 1) s buffer indent =
      match forMembers (fun b mem =>
          match deref h mem.type with
          | .error e => .error e
          | .ok mt =>
            match printFull exprPrint h n mt (StringBuilder.indent b (2 * (indent + 1)))
                (indent + 1) with
            | .error e => .error e
            | .ok b1 => .ok (b1 ++ " " ++ mem.name ++ ";\n"))
          (s.members.getD [])
          (StringBuilder.indent buffer indent ++ "struct " ++ " \x7b\n") with
      | .error e => .error e
      | .ok b => .ok (StringBuilder.indent b indent ++ "\x7d") := by
  rw [printFull]
  simp only [hs]

/-- C17: for a struct node whose members `ms` all have `Builtin` types with a
name (`nameOf m` for the member `m`), `printFull` at indentation 0 returns after
appending the line "struct  \x7b", then for each member in order the line made
of two blanks, the name of its type, a blank, the member's name and ";", and then
"\x7d".  And whenever `printFull` on a type `r` returns, leaving the buffer `out`,
`printFull` on a pointer to `r` returns `out` followed by "*". -/
theorem printFull_struct_and_pointer (exprPrint : Expr → Nat → String) (h : Heap)
    (s : TypeNode) (ms : List DeclExpr) (nameOf : DeclExpr → String) (buffer : String)
    (hs : s.kind = .STRUCT) (hm : s.members.getD [] = ms)
    (hb : ∀ m ∈ ms, ∃ mt, deref h m.type = .ok mt ∧ mt.kind = .BUILTIN ∧
      mt.name = some (nameOf m)) :
    Yields (fun n => printFull exprPrint h n s buffer 0)
      (.ok (buffer ++ "struct  \x7b\n"
        ++ concatLines (ms.map fun m => "  " ++ nameOf m ++ " " ++ m.name ++ ";\n")
        ++ "\x7d")) ∧
    ∀ (p r : TypeNode) (out : String) (indent : Nat), p.kind = .POINTER →
      deref h p.refType = .ok r →
      Yields (fun n => printFull exprPrint h n r buffer indent) (.ok out) →
      Yields (fun n => printFull exprPrint h n p buffer indent) (.ok (out ++ "*")) := by
  constructor
  · refine ⟨2, fun n hn => ?_⟩
    obtain ⟨k, rfl⟩ : ∃ k, n = k + 2 := ⟨n - 2, by omega⟩
    have hempty : ∀ b : String, StringBuilder.indent b 0 = b := by
      intro b; simp [StringBuilder.indent]
    have hlines := forMembers_lines
      (fun b mem =>
        match deref h mem.type with
        | .error e => .error e
        | .ok mt =>
          match printFull exprPrint h (k + 1) mt (StringBuilder.indent b (2 * (0 + 1)))
              (0 + 1) with
          | .error e => .error e
          | .ok b1 => .ok (b1 ++ " " ++ mem.name ++ ";\n"))
      (fun m => "  " ++ nameOf m ++ " " ++ m.name ++ ";\n") ms
      (buffer ++ "struct " ++ " \x7b\n")
      (by
        intro m hmem b1
        obtain ⟨mt, hd, hk, hname⟩ := hb m hmem
        have hind : StringBuilder.indent b1 (2 * (0 + 1)) = b1 ++ "  " := rfl
        simp only [hd, printFull_builtin exprPrint h mt hk, hname, appendCStr, hind,
          String.append_assoc])
    show printFull exprPrint h (k + 1 + 1) s buffer 0 = _
    rw [printFull_struct exprPrint h s hs, hm, hempty, hlines]
    simp only [hempty, String.append_assoc]
    rfl
  · intro p r out indent hk hd hr
    exact (Yields.of_succ (g := fun n =>
        match printFull exprPrint h n r buffer indent with
        | .error e => .error e
        | .ok b => .ok (b ++ "*"))
      (printFull_pointer exprPrint h p r hk hd buffer indent)).mpr (by
        obtain ⟨n0, hn0⟩ := hr
        exact ⟨n0, fun n hn => by
          have := hn0 n hn
          simp only at this
          simp only [this]⟩)

/-- Witness of C17: the struct `Point` of the sample store, with the members
`int x` and `int y`, and the pointer to it. -/
theorem printFull_struct_and_pointer_witness :
    Yields (fun n => printFull sampleEnv.exprPrint sampleGraph n samplePoint "" 0)
      (.ok "struct  \x7b\n  int x;\n  int y;\n\x7d") ∧
    Yields (fun n => printFull sampleEnv.exprPrint sampleGraph n
      { sampleUser with kind := .POINTER, refType := QualType.ofType 3 } "" 0)
      (.ok "struct  \x7b\n  int x;\n  int y;\n\x7d*") :=
  have key := printFull_struct_and_pointer sampleEnv.exprPrint sampleGraph samplePoint
    [⟨"x", QualType.ofType 2⟩, ⟨"y", QualType.ofType 2⟩] (fun _ => "int") "" rfl rfl
    (by
      intro m hmem
      simp only [List.mem_cons, List.mem_singleton, List.not_mem_nil, or_false] at hmem
      rcases hmem with rfl | rfl <;> exact ⟨sampleInt, rfl, rfl, rfl⟩)
  ⟨key.1, key.2 { sampleUser with kind := .POINTER, refType := QualType.ofType 3 }
    samplePoint _ 0 rfl rfl key.1⟩

/-! ### Factories that never deduplicate -/

theorem push_adds_fresh (c : TypeContext) (T : TypeNode) (hwf : c.WF) :
    AddsFreshNode c c.heap.length (c.push T) T := by
  refine ⟨?_, rfl, rfl, ?_⟩
  · intro hmem
    exact Nat.lt_irrefl _ (hwf _ hmem)
  · simp [TypeContext.push]

/-- C18, as stated, fails: `getArray` with the null handle as element does not
return a node; the constructor's assertion fails. -/
theorem getArray_null_fails :
    sampleContext.getArray QualType.null none false
      = .error (.assertion "refType.isValid()") := rfl

/-- C18, amended: on a context whose entries refer to live nodes, `getUser`,
`getStruct`, `getEnum`, `getFunction` with any arguments, and `getArray` with any
non-null element handle, return a node that is none of the entries of the
context, append it as the last entry and leave the entries and nodes that were
there as they were.  `getStruct(true)` yields a `Struct` and `getStruct(false)` a
`Union`, both without members, `getEnum` an `Enum` without members, `getArray` an
`Array` with the given element, size expression and ownership flag, and
`getFunction(r)` a `Func` with return type `r` and no arguments. -/
theorem factories_add_fresh_node (c : TypeContext) (hwf : c.WF) :
    (∃ a c1 n, c.getUser = .ok (a, c1) ∧ AddsFreshNode c a c1 n ∧
      n.kind = .USER ∧ n.refType = QualType.null) ∧
    (∀ isStruct : Bool, ∃ a c1 n, c.getStruct isStruct = .ok (a, c1) ∧
      AddsFreshNode c a c1 n ∧ n.kind = (if isStruct then .STRUCT else .UNION) ∧
      n.members = none) ∧
    (∃ a c1 n, c.getEnum = .ok (a, c1) ∧ AddsFreshNode c a c1 n ∧
      n.kind = .ENUM ∧ n.members = none) ∧
    (∀ (ref : QualType) (sizeExpr : Option Expr) (ownSize : Bool), ref.isValid = true →
      ∃ a c1 n, c.getArray ref sizeExpr ownSize = .ok (QualType.ofType a, c1) ∧
        AddsFreshNode c a c1 n ∧ n.kind = .ARRAY ∧ n.refType = ref ∧
        n.arrayExpr = sizeExpr ∧ n.ownArrayExpr = ownSize) ∧
    (∀ rtype : QualType, ∃ a c1 n, c.getFunction rtype = .ok (a, c1) ∧
      AddsFreshNode c a c1 n ∧ n.kind = .FUNC ∧ n.refType = rtype ∧ n.arguments = []) := by
  refine ⟨?_, ?_, ?_, ?_, ?_⟩
  · exact ⟨_, _, _, rfl, push_adds_fresh c _ hwf, rfl, rfl⟩
  · intro isStruct
    cases isStruct
    · exact ⟨_, _, _, rfl, push_adds_fresh c _ hwf, rfl, rfl⟩
    · exact ⟨_, _, _, rfl, push_adds_fresh c _ hwf, rfl, rfl⟩
  · exact ⟨_, _, _, rfl, push_adds_fresh c _ hwf, rfl, rfl⟩
  · intro ref sizeExpr ownSize hv
    have hnew : TypeNode.new .ARRAY ref = .ok ⟨.ARRAY, ref, QualType.null, none, none,
        none, [], none, false, none, none, 0, none⟩ := by
      simp only [TypeNode.new, hv, if_true]
    have hget : c.getArray ref sizeExpr ownSize = .ok (QualType.ofType c.heap.length,
        c.push (TypeNode.setArrayExpr ⟨.ARRAY, ref, QualType.null, none, none,
          none, [], none, false, none, none, 0, none⟩ sizeExpr ownSize)) := by
      simp only [TypeContext.getArray, hnew]
    exact ⟨_, _, _, hget, push_adds_fresh c _ hwf, rfl, rfl, rfl, rfl⟩
  · intro rtype
    exact ⟨_, _, _, rfl, push_adds_fresh c _ hwf, rfl, rfl, rfl⟩

/-- Witness of C18 (amended): the five factories on the sample context, which owns
two user nodes. -/
theorem factories_add_fresh_node_witness :
    (∃ a c1 n, sampleContext.getUser = .ok (a, c1) ∧ AddsFreshNode sampleContext a c1 n ∧
      n.kind = .USER ∧ n.refType = QualType.null) ∧
    (∀ isStruct : Bool, ∃ a c1 n, sampleContext.getStruct isStruct = .ok (a, c1) ∧
      AddsFreshNode sampleContext a c1 n ∧ n.kind = (if isStruct then .STRUCT else .UNION) ∧
      n.members = none) ∧
    (∃ a c1 n, sampleContext.getEnum = .ok (a, c1) ∧ AddsFreshNode sampleContext a c1 n ∧
      n.kind = .ENUM ∧ n.members = none) ∧
    (∀ (ref : QualType) (sizeExpr : Option Expr) (ownSize : Bool), ref.isValid = true →
      ∃ a c1 n, sampleContext.getArray ref sizeExpr ownSize = .ok (QualType.ofType a, c1) ∧
        AddsFreshNode sampleContext a c1 n ∧ n.kind = .ARRAY ∧ n.refType = ref ∧
        n.arrayExpr = sizeExpr ∧ n.ownArrayExpr = ownSize) ∧
    (∀ rtype : QualType, ∃ a c1 n, sampleContext.getFunction rtype = .ok (a, c1) ∧
      AddsFreshNode sampleContext a c1 n ∧ n.kind = .FUNC ∧ n.refType = rtype ∧
      n.arguments = []) :=
  factories_add_fresh_node sampleContext (by decide)

/-! ### Calls on a node of the wrong kind -/

/-- C19 at the failing input: `getArgument` asserts nothing about the kind.  On a
struct node as the constructor leaves it, `getArgument(0)` returns the null
handle; and so does `getArgument(i)` for every `i` on a fresh node of any kind. -/
theorem getArgument_wrong_kind_returns :
    (TypeNode.new .STRUCT QualType.null).map (fun t => t.getArgument 0)
      = .ok QualType.null ∧
    ∀ (k : Kind) (r : QualType) (t : TypeNode) (i : Nat),
      TypeNode.new k r = .ok t → t.getArgument i = QualType.null := by
  refine ⟨rfl, ?_⟩
  intro k r t i hnew
  have harg : t.arguments = [] := by
    simp only [TypeNode.new] at hnew
    split at hnew <;> split at hnew <;>
      first
        | (simp only [Except.ok.injEq] at hnew; subst hnew; rfl)
        | simp at hnew
  simp [TypeNode.getArgument, harg, TypeNode.getArgumentFrom]

/-- The other kind-specific calls do assert the kind: each fails on a node of a
wrong kind (so the node stays as it is). -/
theorem wrong_kind_calls_fail (t : TypeNode) (m : Option MemberList) (q : QualType) :
    (¬ (t.kind = .STRUCT ∨ t.kind = .UNION ∨ t.kind = .ENUM) →
      t.setMembers m
        = .error (.assertion "kind == STRUCT || kind == UNION || kind == ENUM") ∧
      t.getMembers
        = .error (.assertion "kind == STRUCT || kind == UNION || kind == ENUM")) ∧
    (t.kind ≠ .FUNC →
      t.setReturnType q = .error (.assertion "kind == FUNC") ∧
      t.addArgument q = .error (.assertion "kind == FUNC")) ∧
    (t.kind ≠ .USER → t.setRefType q = .error (.assertion "kind == USER")) := by
  refine ⟨fun hk => ?_, fun hk => ?_, fun hk => ?_⟩
  · simp [TypeNode.setMembers, TypeNode.getMembers, hk]
  · simp [TypeNode.setReturnType, TypeNode.addArgument, hk]
  · simp [TypeNode.setRefType, hk]

/-! ### Pointer nodes stay interned -/

/-- A scan that found nothing: no entry is a pointer node with element `ref`. -/
theorem findPointer_none (h : Heap) (ref : QualType) :
    ∀ ts : List Addr, TypeContext.findPointer h ref ts = .ok none →
      ∀ b ∈ ts, ∀ nb : TypeNode, h[b]? = some nb → nb.kind = .POINTER → nb.refType ≠ ref := by
  intro ts
  induction ts with
  | nil => intro _ b hb; cases hb
  | cons t rest ih =>
    intro hf b hb nb hnb hk href
    simp only [TypeContext.findPointer] at hf
    cases hn : h[t]? with
    | none => simp [hn] at hf
    | some n =>
      simp only [hn] at hf
      split at hf
      · simp at hf
      · rename_i hc
        rcases List.mem_cons.mp hb with rfl | hmem
        · rw [hn] at hnb
          cases hnb
          exact hc (by simp [TypeNode.isPointerType, TypeNode.getRefType, hk, href])
        · exact ih hf b hmem nb hnb hk href

/-- Appending a node keeps the pointers interned when the node is no pointer, or
is a pointer whose element no pointer entry has. -/
theorem push_interned (c : TypeContext) (T : TypeNode) (hwf : c.WF)
    (hi : PointersInterned c)
    (hT : T.kind = .POINTER → ∀ b ∈ c.types, ∀ nb : TypeNode, c.heap[b]? = some nb →
      nb.kind = .POINTER → nb.refType ≠ T.refType) :
    PointersInterned (c.push T) := by
  have hold : ∀ a ∈ c.types, ∀ n : TypeNode, (c.push T).heap[a]? = some n →
      c.heap[a]? = some n := by
    intro a ha n hn
    have hlt : a < c.heap.length := hwf a ha
    simpa only [TypeContext.push, List.getElem?_append_left hlt] using hn
  have hnew : ∀ n : TypeNode, (c.push T).heap[c.heap.length]? = some n → n = T := by
    intro n hn
    simp [TypeContext.push] at hn
    exact hn.symm
  intro a b na nb ha hb hna hnb hka hkb href
  simp only [TypeContext.push, List.mem_append, List.mem_singleton] at ha hb
  rcases ha with ha | ha <;> rcases hb with hb | hb
  · exact hi a b na nb ha hb (hold a ha na hna) (hold b hb nb hnb) hka hkb href
  · subst hb
    have := hnew nb hnb
    subst this
    exact absurd href (hT hkb a ha na (hold a ha na hna) hka)
  · subst ha
    have := hnew na hna
    subst this
    exact absurd href.symm (hT hka b hb nb (hold b hb nb hnb) hkb)
  · rw [ha, hb]

/-- After a method that refuses pointer nodes and keeps the kind, every pointer
node of the new store is the same node of the old store. -/
theorem call_pointer_back (c c1 : TypeContext) (b : Addr)
    (f : TypeNode → Except Err TypeNode)
    (hf : ∀ n n1, f n = .ok n1 → n.kind ≠ .POINTER ∧ n1.kind = n.kind)
    (hc : c.call b f = .ok c1) :
    c1.types = c.types ∧
      ∀ (a : Addr) (n : TypeNode), c1.heap[a]? = some n → n.kind = .POINTER →
        c.heap[a]? = some n := by
  simp only [TypeContext.call, Heap.call] at hc
  cases hb : c.heap[b]? with
  | none => simp [hb] at hc
  | some t =>
    simp only [hb] at hc
    cases hft : f t with
    | error e => simp [hft] at hc
    | ok t1 =>
      simp only [hft, Except.ok.injEq] at hc
      subst hc
      refine ⟨rfl, ?_⟩
      intro a n ha hk
      have hlt : b < c.heap.length := (List.getElem?_eq_some_iff.mp hb).1
      by_cases hab : b = a
      · subst hab
        simp only [List.getElem?_set_self hlt, Option.some.injEq] at ha
        subst ha
        obtain ⟨hnp, hkeep⟩ := hf t t1 hft
        exact absurd (hkeep ▸ hk) hnp
      · simpa [List.getElem?_set_ne hab] using ha

theorem setter_keeps_kind (m : Option MemberList) (q : QualType) (n n1 : TypeNode) :
    (n.setMembers m = .ok n1 → n1.kind = n.kind) ∧
    (n.setReturnType q = .ok n1 → n1.kind = n.kind) ∧
    (n.addArgument q = .ok n1 → n1.kind = n.kind) ∧
    (n.setRefType q = .ok n1 → n1.kind = n.kind) := by
  refine ⟨?_, ?_, ?_, ?_⟩
  · intro h
    simp only [TypeNode.setMembers] at h
    split at h
    · split at h
      · simp only [Except.ok.injEq] at h; subst h; rfl
      · simp at h
    · simp at h
  · intro h
    simp only [TypeNode.setReturnType] at h
    split at h
    · simp only [Except.ok.injEq] at h; subst h; rfl
    · simp at h
  · intro h
    simp only [TypeNode.addArgument] at h
    split at h
    · simp only [Except.ok.injEq] at h; subst h; rfl
    · simp at h
  · intro h
    simp only [TypeNode.setRefType] at h
    split at h
    · simp only [Except.ok.injEq] at h; subst h; rfl
    · simp at h

/-- One call keeps the pointers of a well-formed context interned. -/
theorem step_interned (c c1 : TypeContext) (op : Op) (hwf : c.WF)
    (hi : PointersInterned c) (hs : step c op = .ok c1) : PointersInterned c1 := by
  have hpush : ∀ T : TypeNode, T.kind ≠ .POINTER → PointersInterned (c.push T) :=
    fun T hT => push_interned c T hwf hi (fun hk => absurd hk hT)
  have hcall : ∀ (b : Addr) (f : TypeNode → Except Err TypeNode),
      (∀ n n1, f n = .ok n1 → n.kind ≠ .POINTER ∧ n1.kind = n.kind) →
      c.call b f = .ok c1 → PointersInterned c1 := by
    intro b f hf hc
    obtain ⟨ht, hback⟩ := call_pointer_back c c1 b f hf hc
    intro x y nx ny hx hy hnx hny hkx hky href
    rw [ht] at hx hy
    exact hi x y nx ny hx hy (hback x nx hnx hkx) (hback y ny hny hky) hkx hky href
  cases op with
  | getUser =>
    simp only [step, TypeContext.getUser, TypeNode.new, QualType.isNull, QualType.null,
      Option.isNone_none, if_true, Except.map, Except.ok.injEq] at hs
    subst hs; exact hpush _ (by simp)
  | getPointer ref =>
    simp only [step, TypeContext.getPointer] at hs
    split at hs
    · simp [Except.map] at hs
    · simp only [Except.map, Except.ok.injEq] at hs
      subst hs; exact hi
    · rename_i hfind
      split at hs
      · simp [Except.map] at hs
      · rename_i N hN
        simp only [Except.map, Except.ok.injEq] at hs
        subst hs
        have href : N.refType = ref := by
          simp only [TypeNode.new] at hN
          split at hN
          · simp only [Except.ok.injEq] at hN; subst hN; rfl
          · simp at hN
        exact push_interned c N hwf hi (fun _ b hb nb hnb hkb =>
          href ▸ findPointer_none c.heap ref c.types hfind b hb nb hnb hkb)
  | getStruct isStruct =>
    cases isStruct <;>
    · simp only [step, TypeContext.getStruct, TypeNode.new, QualType.isNull, QualType.null,
        Option.isNone_none, if_true, Except.map, Except.ok.injEq, Bool.false_eq_true,
        if_false] at hs
      subst hs; exact hpush _ (by simp)
  | getEnum =>
    simp only [step, TypeContext.getEnum, TypeNode.new, QualType.isNull, QualType.null,
      Option.isNone_none, if_true, Except.map, Except.ok.injEq] at hs
    subst hs; exact hpush _ (by simp)
  | getArray ref sizeExpr ownSize =>
    simp only [step, TypeContext.getArray] at hs
    split at hs
    · simp [Except.map] at hs
    · rename_i T hT
      simp only [Except.map, Except.ok.injEq] at hs
      subst hs
      have hk : T.kind = .ARRAY := by
        simp only [TypeNode.new] at hT
        split at hT
        · simp only [Except.ok.injEq] at hT; subst hT; rfl
        · simp at hT
      exact hpush _ (by simp [TypeNode.setArrayExpr, hk])
  | getFunction rtype =>
    simp only [step, TypeContext.getFunction, TypeNode.new, QualType.isNull, QualType.null,
      Option.isNone_none, if_true, TypeNode.setReturnType, Except.map,
      Except.ok.injEq] at hs
    subst hs; exact hpush _ (by simp)
  | setMembers t members =>
    exact hcall t _ (fun n n1 h => ⟨setMembers_not_pointer members n n1 h,
      (setter_keeps_kind members QualType.null n n1).1 h⟩) hs
  | setReturnType t type =>
    exact hcall t _ (fun n n1 h => ⟨setReturnType_not_pointer type n n1 h,
      (setter_keeps_kind none type n n1).2.1 h⟩) hs
  | addArgument t type =>
    exact hcall t _ (fun n n1 h => ⟨addArgument_not_pointer type n n1 h,
      (setter_keeps_kind none type n n1).2.2.1 h⟩) hs
  | setRefType t type =>
    exact hcall t _ (fun n n1 h => ⟨setRefType_not_pointer type n n1 h,
      (setter_keeps_kind none type n n1).2.2.2 h⟩) hs

theorem run_interned (ops : List Op) : ∀ (c c1 : TypeContext), c.WF → PointersInterned c →
    run c ops = .ok c1 → PointersInterned c1 := by
  induction ops with
  | nil =>
    intro c c1 _ hi hr
    simp only [run, Except.ok.injEq] at hr
    subst hr; exact hi
  | cons op ops ih =>
    intro c c1 hwf hi hr
    simp only [run] at hr
    cases hs : step c op with
    | error e => simp [hs] at hr
    | ok c0 =>
      simp only [hs] at hr
      exact ih c0 c1 (step_frame c c0 op hwf hs).1 (step_interned c c0 op hwf hi hs) hr

/-- C20: in every context reached from an empty context (over any store `h0`) by
a sequence of factory and setter calls that run through, no two distinct entries
of `types` are pointer nodes with equal element handles. -/
theorem pointers_interned_reachable (h0 : Heap) (ops : List Op) (c : TypeContext)
    (hr : run ⟨h0, []⟩ ops = .ok c) : PointersInterned c :=
  run_interned ops ⟨h0, []⟩ c (fun _ ha => by cases ha)
    (fun _ _ _ _ ha => by cases ha) hr

/-- Witness of C20: over the store of the sample context, a user node and a
function are created, the pointer to the user node is requested twice, with a
resolution of the user node in between, and a pointer to the const-qualified user
node once; the context ends with four entries. -/
theorem pointers_interned_reachable_witness :
    (run ⟨sampleContext.heap, []⟩
        [Op.getUser, Op.getPointer (QualType.ofType 2), Op.getFunction QualType.null,
         Op.setRefType 2 (QualType.ofType 0), Op.getPointer (QualType.ofType 2),
         Op.getPointer ⟨some 2, 1⟩, Op.addArgument 4 (QualType.ofType 3)]).map
      (fun c => c.types) = .ok [2, 3, 4, 5] ∧
    ∃ c, run ⟨sampleContext.heap, []⟩
        [Op.getUser, Op.getPointer (QualType.ofType 2), Op.getFunction QualType.null,
         Op.setRefType 2 (QualType.ofType 0), Op.getPointer (QualType.ofType 2),
         Op.getPointer ⟨some 2, 1⟩, Op.addArgument 4 (QualType.ofType 3)] = .ok c ∧
      PointersInterned c := by
  refine ⟨rfl, ?_⟩
  obtain ⟨c, hc⟩ : ∃ c, run ⟨sampleContext.heap, []⟩
      [Op.getUser, Op.getPointer (QualType.ofType 2), Op.getFunction QualType.null,
       Op.setRefType 2 (QualType.ofType 0), Op.getPointer (QualType.ofType 2),
       Op.getPointer ⟨some 2, 1⟩, Op.addArgument 4 (QualType.ofType 3)] = .ok c := ⟨_, rfl⟩
  exact ⟨c, hc, pointers_interned_reachable sampleContext.heap _ c hc⟩

/-! ### Symmetry and reflexivity of the compatibility check -/

/-- A node that is not a `Builtin` is never compatible with a `Builtin` node, in
either position (among `Builtin`, `Pointer` and `Array` nodes). -/
theorem isCompatible_kind_mismatch (h : Heap) (t t2 : TypeNode)
    (ht : BuiltinPointerArray h t) (hne : t.kind ≠ t2.kind) :
    Yields (fun n => isCompatible h n t t2) (.ok false) := by
  cases ht with
  | builtin _ hk =>
    exact Yields.of_const fun n => by
      have hk2 : t2.kind ≠ .BUILTIN := fun hc => hne (hk.trans hc.symm)
      simp [isCompatible_builtin h t t2 hk, hk2]
  | pointer _ _ hk =>
    exact Yields.of_const (isCompatible_pointer_other h t t2 hk
      (fun hc => hne (hk.trans hc.symm)))
  | array _ _ hk =>
    exact Yields.of_const (isCompatible_array_other h t t2 hk
      (fun hc => hne (hk.trans hc.symm)))

/-- The check returns the same boolean with receiver and argument exchanged. -/
theorem isCompatible_symm (h : Heap) (t : TypeNode) (ht : BuiltinPointerArray h t) :
    ∀ t2, BuiltinPointerArray h t2 →
      ∃ b, Yields (fun n => isCompatible h n t t2) (.ok b) ∧
        Yields (fun n => isCompatible h n t2 t) (.ok b) := by
  induction ht with
  | builtin t hk =>
    intro t2 ht2
    by_cases hk2 : t2.kind = .BUILTIN
    · refine ⟨t.name == t2.name, Yields.of_const fun n => ?_, Yields.of_const fun n => ?_⟩
      · simp [isCompatible_builtin h t t2 hk, hk2]
      · have hcomm : (t2.name == t.name) = (t.name == t2.name) := by
          rw [Bool.eq_iff_iff]
          simp only [beq_iff_eq]
          exact eq_comm
        simp only [isCompatible_builtin h t2 t hk2, hk, hcomm, ne_eq, not_true_eq_false,
          if_false]
    · have hne : t.kind ≠ t2.kind := fun hc => hk2 (hc ▸ hk)
      exact ⟨false, isCompatible_kind_mismatch h t t2 (.builtin t hk) hne,
        isCompatible_kind_mismatch h t2 t ht2 (Ne.symm hne)⟩
  | pointer t r hk hd hr ih =>
    intro t2 ht2
    by_cases hk2 : t2.kind = .POINTER
    · cases ht2 with
      | builtin _ hb => rw [hk2] at hb; cases hb
      | array _ _ hb => rw [hk2] at hb; cases hb
      | pointer _ r2 _ hd2 hr2 =>
        obtain ⟨b, hb1, hb2⟩ := ih r2 hr2
        exact ⟨b,
          (Yields.of_succ (isCompatible_elements h t t2 r r2 (Or.inl ⟨hk, hk2⟩) hd hd2)).mpr hb1,
          (Yields.of_succ (isCompatible_elements h t2 t r2 r (Or.inl ⟨hk2, hk⟩) hd2 hd)).mpr hb2⟩
    · have hne : t.kind ≠ t2.kind := fun hc => hk2 (hc ▸ hk)
      exact ⟨false, isCompatible_kind_mismatch h t t2 (.pointer t r hk hd hr) hne,
        isCompatible_kind_mismatch h t2 t ht2 (Ne.symm hne)⟩
  | array t r hk hd hr ih =>
    intro t2 ht2
    by_cases hk2 : t2.kind = .ARRAY
    · cases ht2 with
      | builtin _ hb => rw [hk2] at hb; cases hb
      | pointer _ _ hb => rw [hk2] at hb; cases hb
      | array _ r2 _ hd2 hr2 =>
        obtain ⟨b, hb1, hb2⟩ := ih r2 hr2
        exact ⟨b,
          (Yields.of_succ (isCompatible_elements h t t2 r r2 (Or.inr ⟨hk, hk2⟩) hd hd2)).mpr hb1,
          (Yields.of_succ (isCompatible_elements h t2 t r2 r (Or.inr ⟨hk2, hk⟩) hd2 hd)).mpr hb2⟩
    · have hne : t.kind ≠ t2.kind := fun hc => hk2 (hc ▸ hk)
      exact ⟨false, isCompatible_kind_mismatch h t t2 (.array t r hk hd hr) hne,
        isCompatible_kind_mismatch h t2 t ht2 (Ne.symm hne)⟩

/-- The check of a type against itself returns true. -/
theorem isCompatible_refl (h : Heap) (t : TypeNode) (ht : BuiltinPointerArray h t) :
    Yields (fun n => isCompatible h n t t) (.ok true) := by
  induction ht with
  | builtin t hk =>
    exact Yields.of_const fun n => by simp [isCompatible_builtin h t t hk, hk]
  | pointer t r hk hd _ ih =>
    exact (Yields.of_succ
      (isCompatible_elements h t t r r (Or.inl ⟨hk, hk⟩) hd hd)).mpr ih
  | array t r hk hd _ ih =>
    exact (Yields.of_succ
      (isCompatible_elements h t t r r (Or.inr ⟨hk, hk⟩) hd hd)).mpr ih

/-- C21: for two types `t1`, `t2` built only from `Builtin`, `Pointer` and `Array`
nodes, `isCompatible(t1, t2)` returns a boolean, `isCompatible(t2, t1)` returns
the same boolean, and `isCompatible(t1, t1)` returns true. -/
theorem isCompatible_symmetric_reflexive (h : Heap) (t1 t2 : TypeNode)
    (h1 : BuiltinPointerArray h t1) (h2 : BuiltinPointerArray h t2) :
    (∃ b, Yields (fun n => isCompatible h n t1 t2) (.ok b) ∧
      Yields (fun n => isCompatible h n t2 t1) (.ok b)) ∧
    Yields (fun n => isCompatible h n t1 t1) (.ok true) :=
  ⟨isCompatible_symm h t1 h1 t2 h2, isCompatible_refl h t1 h1⟩

/-- Witness of C21: in the sample store, the const-qualified pointer to the
pointer to "int" against the pointer to "int". -/
theorem isCompatible_symmetric_reflexive_witness :
    (∃ b, Yields (fun n => isCompatible sampleHeap n
        { sampleUser with kind := .POINTER, refType := ⟨some 3, 1⟩ }
        { sampleUser with kind := .POINTER, refType := QualType.ofType 0 }) (.ok b) ∧
      Yields (fun n => isCompatible sampleHeap n
        { sampleUser with kind := .POINTER, refType := QualType.ofType 0 }
        { sampleUser with kind := .POINTER, refType := ⟨some 3, 1⟩ }) (.ok b)) ∧
    Yields (fun n => isCompatible sampleHeap n
      { sampleUser with kind := .POINTER, refType := ⟨some 3, 1⟩ }
      { sampleUser with kind := .POINTER, refType := ⟨some 3, 1⟩ }) (.ok true) :=
  isCompatible_symmetric_reflexive sampleHeap
    { sampleUser with kind := .POINTER, refType := ⟨some 3, 1⟩ }
    { sampleUser with kind := .POINTER, refType := QualType.ofType 0 }
    (.pointer _ { sampleUser with kind := .POINTER, refType := QualType.ofType 0 } rfl rfl
      (.pointer _ sampleInt rfl rfl (.builtin _ rfl)))
    (.pointer _ sampleInt rfl rfl (.builtin _ rfl))

end C2
